import Mathlib

/-!
Verification development for the self-hosted deployment orchestrator
(deploy engine, secrets codec, env builder, process-runner redaction,
project store, validator).  JavaScript sources are shallowly embedded:
JS strings are Lean `String`s, byte buffers are `List Nat` with values
below 256, JSON `null`/`undefined` fields are `Option`, thrown
exceptions are `Except`/explicit error values, and external effects
(subprocesses, filesystem, randomness) are an explicit `World` record
of oracles.  Timestamps are modelled by a monotone tick counter.
-/

namespace Deployer

/-- JS truthiness of an optional string field (`undefined`, `null` and
`""` are falsy). -/
def strT (o : Option String) : Bool :=
  match o with
  | some s => s ≠ ""
  | none => false

/-- JS truthiness of an optional number field (`undefined`, `null` and
`0` are falsy). -/
def natT (o : Option Nat) : Bool :=
  match o with
  | some n => n ≠ 0
  | none => false

/-- Collapse a JS string field to `some` only when truthy: models
expressions of the form `x || fallback` and `if (x)`. -/
def strVal (o : Option String) : Option String :=
  match o with
  | some s => if s = "" then none else some s
  | none => none

/-- Collapse a JS number field to `some` only when truthy. -/
def natVal (o : Option Nat) : Option Nat :=
  match o with
  | some n => if n = 0 then none else some n
  | none => none

/-- Whitespace set used by `String.prototype.trim` (ASCII part; the
engine only trims command output and user paths, which are ASCII). -/
def isJsWs (c : Char) : Bool :=
  c = ' ' || c = '\t' || c = '\n' || c = '\r' || c = '\x0b' || c = '\x0c'

/-- Model of `String.prototype.trim`. -/
def jsTrim (s : String) : String :=
  String.mk (((s.data.dropWhile isJsWs).reverse.dropWhile isJsWs).reverse)

/-- Model of `String.prototype.startsWith` (character-wise prefix). -/
def jsStartsWith (s pre : String) : Bool :=
  pre.data.isPrefixOf s.data

/-! ## Path model (`path.resolve` / `path.join` / symlink names)

POSIX paths.  `splitSlash` cuts a path string at `/`; `resolveComps`
performs the `.`/`..`/empty-segment normalization that `path.resolve`
applies; `renderAbs` prints an absolute path back.  All call sites in
the sources resolve against absolute bases, which is what this model
covers. -/

/-- Split a character list at `/` (the accumulator holds the current
segment reversed). -/
def splitSlashAux : List Char → List Char → List String
  | cur, [] => [String.mk cur.reverse]
  | cur, c :: rest =>
    if c = '/' then String.mk cur.reverse :: splitSlashAux [] rest
    else splitSlashAux (c :: cur) rest

/-- Split a path string at `/`. -/
def splitSlash (s : String) : List String :=
  splitSlashAux [] s.data

/-- Normalize path components the way `path.resolve` does for an
absolute path: drop empty and `.` segments, let `..` pop (at the root
`..` is dropped). -/
def resolveComps (comps : List String) : List String :=
  comps.foldl
    (fun acc c =>
      if c = "" || c = "." then acc
      else if c = ".." then acc.dropLast
      else acc ++ [c])
    []

/-- Join components with `/` (no leading slash). -/
def joinComps : List String → List Char
  | [] => []
  | [c] => c.data
  | c :: rest => c.data ++ '/' :: joinComps rest

/-- Print an absolute path from its components. -/
def renderAbs (comps : List String) : String :=
  String.mk ('/' :: joinComps comps)

/-- Components of the normalized form of a path string. -/
def normPath (s : String) : List String :=
  resolveComps (splitSlash s)

/-- `path.resolve` of a single absolute (or to-be-normalized) path. -/
def pathResolveAbs (s : String) : String :=
  renderAbs (normPath s)

/-- `path.resolve(base, cand)` where `base` is absolute: an absolute
candidate wins, otherwise the candidate is resolved under `base`. -/
def jsResolve2 (base cand : String) : String :=
  if jsStartsWith cand "/" then pathResolveAbs cand
  else pathResolveAbs (base ++ "/" ++ cand)

/-- `path.join(base, cand)` for an absolute `base` (concatenate and
normalize). -/
def jsJoinAbs (base cand : String) : String :=
  pathResolveAbs (base ++ "/" ++ cand)

/-- `path.dirname` of a normalized absolute path. -/
def dirname (p : String) : String :=
  renderAbs (normPath p).dropLast

/-- src/unnamed/part_002 `ensureWithinBase(baseDir, candidate, fieldName)`:
resolve `candidate` against the resolved base and reject results that are
neither the base itself nor below it (string prefix with a separator). -/
def ensureWithinBase (baseDir candidate fieldName : String) : Except String String :=
  let normalizedBase := pathResolveAbs baseDir
  let resolved := jsResolve2 normalizedBase (if candidate = "" then "." else candidate)
  if resolved = normalizedBase then .ok resolved
  else if !jsStartsWith resolved (normalizedBase ++ "/") then
    .error (fieldName ++ " must stay within the project repository")
  else .ok resolved

/-- src/unnamed/part_002 `ensureDeployPathWithinRoot(deployPath)`:
`path.resolve` the configured nginx root and the deploy path (a relative
deploy path resolves against the process cwd) and require equality or a
separator-delimited prefix. -/
def ensureDeployPathWithinRoot (nginxRoot cwd deployPath : String) : Except String String :=
  let root := pathResolveAbs nginxRoot
  let resolved := jsResolve2 cwd deployPath
  if resolved = root then .ok resolved
  else if !jsStartsWith resolved (root ++ "/") then
    .error "Deploy path must be inside the nginx root"
  else .ok resolved

/-- src/unnamed/part_001 validator `resolveDeployPath(requestedPath, projectId)`.
`config.NGINX_ROOT` is already `path.resolve`d at configuration time.
Note the acceptance test is `resolved.startsWith(config.NGINX_ROOT)`
with NO trailing separator. -/
def resolveDeployPath (nginxRoot : String) (requestedPath : Option String)
    (projectId : Option String) : Except String String :=
  let fallback :=
    match projectId with
    | some pid => if pid ≠ "" then jsJoinAbs nginxRoot pid else nginxRoot
    | none => nginxRoot
  let source :=
    match requestedPath with
    | some r => if jsTrim r ≠ "" then jsTrim r else fallback
    | none => fallback
  let candidate := if jsStartsWith source "/" then source else jsJoinAbs nginxRoot source
  let resolved := pathResolveAbs candidate
  if !jsStartsWith resolved nginxRoot then
    .error "Deploy path must be inside the server root"
  else .ok resolved

/-- Proper, separator-respecting containment: the components of `base`
are a prefix of the components of `p` (equality allowed).  This is the
semantic notion of "equals the root or lies within it". -/
def underDir (base p : String) : Prop :=
  normPath base <+: normPath p

/-- A component list as produced by `resolveComps`: no empty, `.`,
`..` or slash-containing segments. -/
def CleanComps (cs : List String) : Prop :=
  ∀ c ∈ cs, c ≠ "" ∧ c ≠ "." ∧ c ≠ ".." ∧ '/' ∉ c.data

/-! ## Base64 (`Buffer.prototype.toString('base64')` / `Buffer.from(_, 'base64')`) -/

/-- The base64 alphabet. -/
def b64Alphabet : List Char :=
  ['A','B','C','D','E','F','G','H','I','J','K','L','M','N','O','P','Q','R','S','T','U','V','W','X','Y','Z',
   'a','b','c','d','e','f','g','h','i','j','k','l','m','n','o','p','q','r','s','t','u','v','w','x','y','z',
   '0','1','2','3','4','5','6','7','8','9','+','/']

/-- Character for a 6-bit group. -/
def sextetToChar (n : Nat) : Char :=
  b64Alphabet.getD n 'A'

/-- Inverse of `sextetToChar`; `none` for `=` padding and foreign
characters (which `Buffer.from(_, 'base64')` skips). -/
def charToSextet (c : Char) : Option Nat :=
  let i := b64Alphabet.indexOf c
  if i < 64 then some i else none

/-- Bytes to 6-bit groups, by blocks of three bytes. -/
def bytesToSextets : List Nat → List Nat
  | a :: b :: c :: rest =>
    (a / 4) :: ((a % 4) * 16 + b / 16) :: ((b % 16) * 4 + c / 64) :: (c % 64) ::
      bytesToSextets rest
  | [a] => [a / 4, (a % 4) * 16]
  | [a, b] => [a / 4, (a % 4) * 16 + b / 16, (b % 16) * 4]
  | [] => []

/-- 6-bit groups back to bytes, by blocks of four groups (a trailing
lone group is dropped, as in Node). -/
def sextetsToBytes : List Nat → List Nat
  | s1 :: s2 :: s3 :: s4 :: rest =>
    (s1 * 4 + s2 / 16) :: ((s2 % 16) * 16 + s3 / 4) :: ((s3 % 4) * 64 + s4) ::
      sextetsToBytes rest
  | [s1, s2] => [s1 * 4 + s2 / 16]
  | [s1, s2, s3] => [s1 * 4 + s2 / 16, (s2 % 16) * 16 + s3 / 4]
  | _ => []

/-- `=`-padding for a byte count. -/
def b64Padding (len : Nat) : List Char :=
  if len % 3 = 1 then ['=', '=']
  else if len % 3 = 2 then ['=']
  else []

/-- `buf.toString('base64')`. -/
def b64encodeBytes (bs : List Nat) : String :=
  String.mk ((bytesToSextets bs).map sextetToChar ++ b64Padding bs.length)

/-- `Buffer.from(s, 'base64')` (lenient: non-alphabet characters and
padding are skipped). -/
def b64decodeString (s : String) : List Nat :=
  sextetsToBytes (s.data.filterMap charToSextet)

/-! ## UTF-8 (`Buffer.from(s, 'utf8')` / `buf.toString('utf8')`) -/

/-- UTF-8 encoding of one scalar value. -/
def utf8EncodeChar (c : Char) : List Nat :=
  let n := c.toNat
  if n < 128 then [n]
  else if n < 2048 then [192 + n / 64, 128 + n % 64]
  else if n < 65536 then [224 + n / 4096, 128 + (n / 64) % 64, 128 + n % 64]
  else [240 + n / 262144, 128 + (n / 4096) % 64, 128 + (n / 64) % 64, 128 + n % 64]

/-- UTF-8 encoding of a character list. -/
def utf8EncodeList (cs : List Char) : List Nat :=
  cs.foldr (fun c acc => utf8EncodeChar c ++ acc) []

/-- `Buffer.from(s, 'utf8')`. -/
def utf8Encode (s : String) : List Nat :=
  utf8EncodeList s.data

/-- The replacement character U+FFFD emitted by lossy decoding. -/
def replChar : Char := Char.ofNat 65533

/-- Is `b` a UTF-8 continuation byte? -/
def isCont (b : Nat) : Bool :=
  128 ≤ b && b < 192

/-- One step of lossy UTF-8 decoding: given the first byte and the
remaining bytes, the decoded character and the bytes left over.  Exact
on valid UTF-8; on malformed input it yields U+FFFD (the precise Node
replacement policy for malformed multi-byte runs is not load-bearing
for any theorem below, which only evaluate valid encodings). -/
def utf8Step (b : Nat) (rest : List Nat) : Char × List Nat :=
  if b < 128 then (Char.ofNat b, rest)
  else if b < 192 then (replChar, rest)
  else if b < 224 then
    match rest with
    | b2 :: rest2 =>
      if isCont b2 then (Char.ofNat ((b - 192) * 64 + (b2 - 128)), rest2)
      else (replChar, b2 :: rest2)
    | [] => (replChar, [])
  else if b < 240 then
    match rest with
    | b2 :: b3 :: rest3 =>
      if isCont b2 && isCont b3 then
        (Char.ofNat ((b - 224) * 4096 + (b2 - 128) * 64 + (b3 - 128)), rest3)
      else (replChar, b2 :: b3 :: rest3)
    | other => (replChar, other)
  else
    match rest with
    | b2 :: b3 :: b4 :: rest4 =>
      if isCont b2 && isCont b3 && isCont b4 then
        (Char.ofNat ((b - 240) * 262144 + (b2 - 128) * 4096 + (b3 - 128) * 64 + (b4 - 128)),
         rest4)
      else (replChar, b2 :: b3 :: b4 :: rest4)
    | other => (replChar, other)

/-- `buf.toString('utf8')`, with fuel (one unit per decoded character,
so the byte count is always enough). -/
def utf8DecodeLossyAux : Nat → List Nat → List Char
  | 0, _ => []
  | _ + 1, [] => []
  | fuel + 1, b :: rest =>
    (utf8Step b rest).1 :: utf8DecodeLossyAux fuel (utf8Step b rest).2

/-- `buf.toString('utf8')`: total, lossy decoding. -/
def utf8DecodeLossy (bs : List Nat) : List Char :=
  utf8DecodeLossyAux bs.length bs

/-! ## Secrets codec (src/unnamed/part_001, `encryptSecret`/`decryptSecret`)

AES-256-GCM is a stream cipher (counter-mode keystream XORed onto the
plaintext) plus a 16-byte authentication tag over the ciphertext.  The
primitives themselves (key schedule/keystream, GHASH tag, SHA-256 key
derivation) are abstracted as an arbitrary `GcmPrim`; every theorem
below holds for all instantiations, so nothing depends on stubbed
cryptography. -/

structure GcmPrim where
  /-- Keystream byte at an index, for a key and IV (AES-CTR inside GCM). -/
  ks : List Nat → List Nat → Nat → Nat
  /-- Authentication tag of a ciphertext, for a key and IV (GHASH + E(K, J0)). -/
  mac : List Nat → List Nat → List Nat → List Nat
  /-- SHA-256 digest, used for key derivation. -/
  hash : List Nat → List Nat
  /-- A GCM tag is 16 bytes. -/
  mac_len : ∀ key iv ct, (mac key iv ct).length = 16
  /-- A GCM tag consists of bytes. -/
  mac_lt : ∀ key iv ct, ∀ b ∈ mac key iv ct, b < 256

/-- XOR the keystream onto a byte list, starting at index `i`. -/
def xorKs (prim : GcmPrim) (key iv : List Nat) : Nat → List Nat → List Nat
  | _, [] => []
  | i, b :: rest => (b ^^^ prim.ks key iv i % 256) :: xorKs prim key iv (i + 1) rest

/-- src/unnamed/part_001 `encryptSecret(plaintext)`.  The random IV
(`crypto.randomBytes(12)`) is passed as an argument; the stored blob is
base64 of `iv(12) || tag(16) || ciphertext`. -/
def encryptSecret (prim : GcmPrim) (masterKey : String) (iv : List Nat)
    (plaintext : String) : Except String String :=
  if masterKey = "" then
    .error "Secret encryption is not configured (missing SECRETS_MASTER_KEY)"
  else
    let key := prim.hash (utf8Encode masterKey)
    let encrypted := xorKs prim key iv 0 (utf8Encode plaintext)
    let tag := prim.mac key iv encrypted
    .ok (b64encodeBytes (iv ++ tag ++ encrypted))

/-- src/unnamed/part_001 `decryptSecret(ciphertext)`: slice the blob
into `iv/tag/ciphertext`, verify the tag, decrypt. -/
def decryptSecret (prim : GcmPrim) (masterKey : String)
    (ciphertext : String) : Except String String :=
  if masterKey = "" then
    .error "Secret decryption is not configured (missing SECRETS_MASTER_KEY)"
  else
    let raw := b64decodeString ciphertext
    let iv := raw.take 12
    let tag := (raw.drop 12).take 16
    let encrypted := raw.drop 28
    let key := prim.hash (utf8Encode masterKey)
    if prim.mac key iv encrypted = tag then
      .ok (String.mk (utf8DecodeLossy (xorKs prim key iv 0 encrypted)))
    else
      .error "Unsupported state or unable to authenticate data"

/-! ## Redaction (src/api/lib/command.js `redactText`)

`redactText` replaces, for each key, every regex match of
`KEY=([^\s]+)` (flags `gi`, the key itself `escapeRegExp`ed so it
matches literally) with `KEY=[redacted]`.  The model is the equivalent
left-to-right scanner: at each position, if the case-insensitive key
followed by `=` and at least one non-whitespace character matches,
replace the key, `=` and the maximal non-whitespace token and continue
after the token; otherwise advance one character.  The scanner is
written with a fuel argument (one unit per inspected position, so the
input length is always enough fuel) to keep it structurally
recursive. -/

/-- Case-insensitive character comparison (regex `i` flag; the engine's
redaction keys are ASCII env-var names). -/
def ciEq (a b : Char) : Bool :=
  a.toLower = b.toLower

/-- Case-insensitive prefix test. -/
def ciPrefix : List Char → List Char → Bool
  | [], _ => true
  | _ :: _, [] => false
  | p :: ps, t :: ts => ciEq p t && ciPrefix ps ts

/-- Whitespace class `\s` of the redaction regex (ASCII part; see
`isJsWs`). -/
def isWsCh (c : Char) : Bool :=
  isJsWs c

/-- The replacement token. -/
def redactedTok : List Char :=
  "[redacted]".data

/-- One-key scanner with fuel (fuel ≥ input length suffices). -/
def redactOneAux (key : List Char) : Nat → List Char → List Char
  | 0, t => t
  | _ + 1, [] => []
  | fuel + 1, c :: rest =>
    if ciPrefix (key ++ ['=']) (c :: rest) then
      let after := (c :: rest).drop (key.length + 1)
      let tok := after.takeWhile (fun ch => !isWsCh ch)
      if tok.isEmpty then c :: redactOneAux key fuel rest
      else key ++ '=' :: redactedTok ++
        redactOneAux key fuel (after.dropWhile (fun ch => !isWsCh ch))
    else c :: redactOneAux key fuel rest

/-- Redact a single key in a text. -/
def redactOne (key : String) (text : String) : String :=
  String.mk (redactOneAux key.data text.data.length text.data)

/-- src/api/lib/command.js `redactText(text, keys)`: fold over the
keys, skipping falsy keys. -/
def redactText (text : String) (keys : List String) : String :=
  keys.foldl (fun acc k => if k = "" then acc else redactOne k acc) text

/-! ## Env builder (src/api/lib/envBuilder.js) -/

structure EnvEntry where
  key : String := ""
  isSecret : Bool := false
  value : Option String := none
  encryptedValue : Option String := none
deriving DecidableEq

/-- JS-object assignment `m[k] = v` on an insertion-ordered map. -/
def setKV (m : List (String × String)) (k v : String) : List (String × String) :=
  if (m.lookup k).isSome then m.map (fun p => if p.1 = k then (k, v) else p)
  else m ++ [(k, v)]

/-- JS-object spread `{ ...a, ...b }`. -/
def mergeKV (a b : List (String × String)) : List (String × String) :=
  b.foldl (fun acc p => setKV acc p.1 p.2) a

structure EnvMaps where
  plainEnv : List (String × String) := []
  secretEnv : List (String × String) := []
  secretKeys : List String := []
deriving DecidableEq

/-- src/api/lib/envBuilder.js `buildEnvMaps(envEntries)`; the secrets
codec is passed in as the `decrypt` boundary. -/
def buildEnvMaps (decrypt : String → Except String String) :
    List EnvEntry → EnvMaps → Except String EnvMaps
  | [], acc => .ok acc
  | e :: rest, acc =>
    if e.key = "" then buildEnvMaps decrypt rest acc
    else if e.isSecret then
      let acc1 := { acc with secretKeys := acc.secretKeys ++ [e.key] }
      match strVal e.encryptedValue with
      | some ev =>
        match decrypt ev with
        | .ok v => buildEnvMaps decrypt rest { acc1 with secretEnv := setKV acc1.secretEnv e.key v }
        | .error m => .error m
      | none =>
        match strVal e.value with
        | some v => buildEnvMaps decrypt rest { acc1 with secretEnv := setKV acc1.secretEnv e.key v }
        | none => .error ("Secret env " ++ e.key ++ " does not have an encrypted value")
    else
      match e.value with
      | some v => buildEnvMaps decrypt rest { acc with plainEnv := setKV acc.plainEnv e.key v }
      | none => buildEnvMaps decrypt rest acc

/-! ## Command templates (src/api/lib/commandTemplates.js) -/

structure CommandTemplate where
  installCommand : Option String := none
  buildCommand : Option String := none
  testCommand : Option String := none
  startCommand : Option String := none
deriving DecidableEq

def commandTemplates : List (String × CommandTemplate) :=
  [("node-app",
    { installCommand := some "npm ci", buildCommand := some "npm run build",
      testCommand := none, startCommand := some "npm start" }),
   ("static-spa",
    { installCommand := some "npm ci", buildCommand := some "npm run build",
      testCommand := none, startCommand := none })]

/-- `getTemplate(id)`: `null` for a falsy or unknown id. -/
def getTemplate (id : Option String) : Option CommandTemplate :=
  match id with
  | none => none
  | some s => if s = "" then none else commandTemplates.lookup s

/-! ## Project store (projectStore.js: `normalizeStoredEnv`, `getProject`) -/

structure Project where
  repo : Option String := none
  branch : Option String := none
  buildCommand : Option String := none
  installCommand : Option String := none
  testCommand : Option String := none
  startCommand : Option String := none
  buildOutputDir : Option String := none
  buildOutput : Option String := none
  deployPath : Option String := none
  runtime : Option String := none
  domain : Option String := none
  ownerId : Option String := none
  templateId : Option String := none
  runtimePort : Option Nat := none
  port : Option Nat := none
  env : Option (List EnvEntry) := none
  lastDeploy : Option Nat := none
  lastCommit : Option String := none
deriving DecidableEq

/-- Raw `env` field of a stored `deploy-config.json`: absent/non-array,
an entry array, or the legacy `{KEY: value}` map form (values already
coerced to strings by `String(value)`; `null` values are `none`). -/
inductive StoredEnv
  | absent
  | arr (entries : List EnvEntry)
  | obj (pairs : List (String × Option String))
deriving DecidableEq

/-- A parsed `deploy-config.json` before store-level normalization. -/
structure StoredProject where
  repo : Option String := none
  branch : Option String := none
  buildCommand : Option String := none
  installCommand : Option String := none
  testCommand : Option String := none
  startCommand : Option String := none
  buildOutputDir : Option String := none
  buildOutput : Option String := none
  deployPath : Option String := none
  runtime : Option String := none
  domain : Option String := none
  ownerId : Option String := none
  templateId : Option String := none
  runtimePort : Option Nat := none
  port : Option Nat := none
  env : StoredEnv := .absent
  lastDeploy : Option Nat := none
  lastCommit : Option String := none
deriving DecidableEq

/-- projectStore `normalizeStoredEnv(rawEnv)`. -/
def normalizeStoredEnv : StoredEnv → List EnvEntry
  | .absent => []
  | .arr entries =>
    entries.filterMap (fun e =>
      if e.key = "" then none
      else if e.isSecret then
        some { key := e.key, isSecret := true, value := none,
               encryptedValue := strVal e.encryptedValue }
      else
        some { key := e.key, isSecret := false,
               value := some (e.value.getD ""), encryptedValue := none })
  | .obj pairs =>
    pairs.map (fun p => { key := p.1, isSecret := false, value := some (p.2.getD "") })

/-- projectStore `getProject(projectId)`: `null` when the config file is
missing or unparseable (`file = none`), otherwise the parsed record with
env normalized, `ownerId` defaulted to `'admin'` (`||`, so `''` also
defaults) and `templateId` defaulted to `null` (`??`, so `''` is kept). -/
def getProject (file : Option StoredProject) : Option Project :=
  match file with
  | none => none
  | some data =>
    some { repo := data.repo, branch := data.branch,
           buildCommand := data.buildCommand, installCommand := data.installCommand,
           testCommand := data.testCommand, startCommand := data.startCommand,
           buildOutputDir := data.buildOutputDir, buildOutput := data.buildOutput,
           deployPath := data.deployPath, runtime := data.runtime,
           domain := data.domain,
           ownerId := some ((strVal data.ownerId).getD "admin"),
           templateId := data.templateId,
           runtimePort := data.runtimePort, port := data.port,
           env := some (normalizeStoredEnv data.env),
           lastDeploy := data.lastDeploy, lastCommit := data.lastCommit }

/-! ## Deploy engine (src/unnamed/part_002)

The engine variant with `ADMIN_OWNER_ID` and
`ensureDeployPathWithinRoot` — the defensive one the specification
describes (its §9 marks the other `deployEngine.js` as superseded). -/

structure StepRecord where
  status : String := ""
  startedAt : Option Nat := none
  finishedAt : Option Nat := none
  error : Option String := none
deriving DecidableEq

structure DeploymentRecord where
  deploymentId : Nat
  projectId : String
  status : String
  dryRun : Bool
  createdAt : Nat := 0
  startedAt : Option Nat := none
  finishedAt : Option Nat := none
  commit : Option String := none
  error : Option String := none
  steps : List (String × StepRecord) := []
deriving DecidableEq

structure Job where
  deploymentId : Nat
  projectId : String
  dryRun : Bool
deriving DecidableEq

structure EngineError where
  message : String
  statusCode : Option Nat := none
deriving DecidableEq

/-- Static configuration (src/api/lib/config.js), all directories
already `path.resolve`d there. -/
structure EngineCfg where
  projectsDir : String := "/var/deploy/projects"
  logsDir : String := "/var/deploy/logs"
  nginxRoot : String := "/var/www"
  sitesAvailable : String := "/etc/nginx/sites-available"
  sitesEnabled : String := "/etc/nginx/sites-enabled"
  pm2Bin : String := "pm2"
  defaultBuildOutput : String := "build"
  cwd : String := "/srv/api"
  maxConcurrent : Nat := 1
  maxQueueSize : Nat := 50

/-- projectStore directory helpers (`path.join` chains). -/
def projectRoot (projectsDir projectId : String) : String :=
  jsJoinAbs projectsDir projectId

def repoDir (projectsDir projectId : String) : String :=
  jsJoinAbs (projectRoot projectsDir projectId) "repo"

def releasesDirOf (projectsDir projectId : String) : String :=
  jsJoinAbs (projectRoot projectsDir projectId) "releases"

def currentSymlink (projectsDir projectId : String) : String :=
  jsJoinAbs (projectRoot projectsDir projectId) "current"

def previousSymlink (projectsDir projectId : String) : String :=
  jsJoinAbs (projectRoot projectsDir projectId) "previous"

/-- Process-wide engine state: the in-memory FIFO `queue`, the `active`
worker counter, and the deployment store (one JSON record per
deployment).  `nextId` stands in for `crypto.randomUUID()` and `clock`
for `new Date()`. -/
structure EngineState where
  queue : List Job := []
  active : Nat := 0
  deployments : List DeploymentRecord := []
  nextId : Nat := 0
  clock : Nat := 0
deriving DecidableEq

/-- deploymentStore `createDeployment(projectId, {dryRun})`: persist a
fresh record in `queued` state. -/
def createDeployment (st : EngineState) (projectId : String) (dryRun : Bool) :
    EngineState × DeploymentRecord :=
  let d : DeploymentRecord :=
    { deploymentId := st.nextId, projectId := projectId, status := "queued",
      dryRun := dryRun, createdAt := st.clock, steps := [] }
  ({ st with deployments := st.deployments ++ [d], nextId := st.nextId + 1,
             clock := st.clock + 1 }, d)

/-- src/unnamed/part_002 `queueDeployment(projectId, options)` up to the
point where the HTTP request returns: validation, admission bound,
record creation, queue push.  `project` is the `projectStore.getProject`
result.  (`processQueue()` is fired asynchronously afterwards and is
modelled separately.) -/
def queueDeployment (cfg : EngineCfg) (st : EngineState) (projectId : String)
    (project : Option Project) (dryRun : Bool) :
    Except EngineError (EngineState × Job) :=
  match project with
  | none => .error { message := "Project missing deployPath" }
  | some p =>
    if !strT p.deployPath then .error { message := "Project missing deployPath" }
    else if !strT p.repo || !strT p.branch then
      .error { message := "Project configuration incomplete (repo and branch required)" }
    else
      let ownerIsAdmin := (strVal p.ownerId).getD "admin" = "admin"
      if ownerIsAdmin && !strT p.buildCommand then
        .error { message := "Project configuration incomplete (buildCommand required)" }
      else if !ownerIsAdmin && !strT p.templateId then
        .error { message := "Project missing command template" }
      else if !strT p.deployPath then .error { message := "Project missing deployPath" }
      else
        match ensureDeployPathWithinRoot cfg.nginxRoot cfg.cwd (p.deployPath.getD "") with
        | .error m => .error { message := m }
        | .ok _ =>
          if st.queue.length + st.active ≥ cfg.maxQueueSize then
            .error { message := "Deployment queue is full. Try again later.",
                     statusCode := some 429 }
          else
            let (st1, d) := createDeployment st projectId dryRun
            let job : Job := { deploymentId := d.deploymentId, projectId := projectId,
                               dryRun := dryRun }
            .ok ({ st1 with queue := st1.queue ++ [job] }, job)

/-- The synchronous head of `processQueue()`: bail out when all workers
are busy or the queue is empty, otherwise shift the next FIFO job and
bump the active counter (the job then runs asynchronously). -/
def processQueue (cfg : EngineCfg) (st : EngineState) : EngineState × Option Job :=
  if st.active ≥ cfg.maxConcurrent then (st, none)
  else
    match st.queue with
    | [] => (st, none)
    | job :: rest => ({ st with queue := rest, active := st.active + 1 }, some job)

/-! ### Worker-side state and external world -/

/-- Filesystem mutations the worker performs (recorded as a trace). -/
inductive FsOp
  | mkdirp (p : String)
  | cp (src dst : String)
  | rm (p : String)
  | symlink (target linkPath : String)
  | writeFile (p : String)
deriving DecidableEq

/-- External nondeterminism: filesystem probes, subprocess results,
symlink contents, the secrets codec boundary, `Math.random`, and the
parent process env. -/
structure World where
  pathExists : String → Bool
  runCmd : String → List String → Nat × String
  readlink : String → Option String
  decrypt : String → Except String String
  randomPort : Nat
  processEnv : List (String × String) := []

/-- Per-deployment mutable state threaded through a worker run: the
deployment store, the stored project file, the log stream contents, the
clock, the `commitHash`/`releaseInfo` closure variables and the
filesystem trace. -/
structure RunSt where
  ds : List DeploymentRecord := []
  stored : Option Project := none
  log : List String := []
  clock : Nat := 0
  commitHash : Option String := none
  releasePath : Option String := none
  fsOps : List FsOp := []
deriving DecidableEq

/-- `new Date()`. -/
def tick (s : RunSt) : Nat × RunSt :=
  (s.clock, { s with clock := s.clock + 1 })

/-- Append to the deployment log stream. -/
def logW (s : RunSt) (m : String) : RunSt :=
  { s with log := s.log ++ [m] }

/-- deploymentStore `updateDeployment` (no-op when the id is absent,
like the store's `if (!record) return null`). -/
def updDep (s : RunSt) (id : Nat) (f : DeploymentRecord → DeploymentRecord) : RunSt :=
  { s with ds := s.ds.map (fun d => if d.deploymentId = id then f d else d) }

def emptyStep : StepRecord := {}

/-- deploymentStore `appendStep`: merge into the existing step record
(or a fresh `{}`), keeping JS-object insertion order. -/
def upsertStep (steps : List (String × StepRecord)) (name : String)
    (f : StepRecord → StepRecord) : List (String × StepRecord) :=
  match steps.lookup name with
  | some _ => steps.map (fun p => if p.1 = name then (p.1, f p.2) else p)
  | none => steps ++ [(name, f emptyStep)]

def recordStep (s : RunSt) (id : Nat) (name : String)
    (f : StepRecord → StepRecord) : RunSt :=
  updDep s id (fun d => { d with steps := upsertStep d.steps name f })

/-- A step body / effect: state in, state plus optional thrown error
out (external writes already performed survive a throw). -/
abbrev StepM := RunSt → RunSt × Option String

/-- deploymentStore `getDeployment` on the modelled store. -/
def getDep (s : RunSt) (id : Nat) : Option DeploymentRecord :=
  s.ds.find? (fun d => d.deploymentId == id)

/-- The recorded state of one step of one deployment (`none` when the
record or the step entry is absent — the step has not started). -/
def stepOf (s : RunSt) (id : Nat) (name : String) : Option StepRecord :=
  match getDep s id with
  | some d => d.steps.lookup name
  | none => none

/-- An effect that neither deletes deployment records nor touches their
step maps (it may update other record fields, the log, the clock, the
filesystem or the stored project). -/
def PreservesSteps (id : Nat) (m : StepM) : Prop :=
  ∀ s : RunSt, ((getDep (m s).1 id).map DeploymentRecord.steps)
      = ((getDep s id).map DeploymentRecord.steps)

/-- Result of `runCommand`: state, thrown error, captured stdout. -/
structure CmdOut where
  st : RunSt
  err : Option String := none
  out : String := ""

/-- src/api/lib/command.js `runCommand(cmd, args, {redactKeys}, logStream, dryRun)`:
in dry-run log the redacted command line and succeed with empty output;
otherwise consult the subprocess oracle, stream redacted output to the
log, and throw on a non-zero exit code.  `hasLog` models a `null`
`logStream`. -/
def runCommandM (w : World) (hasLog : Bool) (cmd : String) (args : List String)
    (redactKeys : List String) (dryRun : Bool) (s : RunSt) : CmdOut :=
  let safe := redactText (String.intercalate " " (cmd :: args)) redactKeys
  if dryRun then
    { st := if hasLog then logW s ("[dry-run] " ++ safe ++ "\n") else s, out := "" }
  else
    let res := w.runCmd cmd args
    let s1 := if hasLog then logW s (redactText res.2 redactKeys) else s
    if res.1 ≠ 0 then
      { st := s1,
        err := some ("Command \"" ++ safe ++ "\" exited with code " ++ toString res.1) }
    else
      { st := s1, out := res.2 }

/-- `runShellCommand(script, options, logStream, dryRun)` =
`runCommand('bash', ['-lc', script], ...)`. -/
def runShellCommandM (w : World) (hasLog : Bool) (script : String)
    (redactKeys : List String) (dryRun : Bool) (s : RunSt) : CmdOut :=
  runCommandM w hasLog "bash" ["-lc", script] redactKeys dryRun s

/-- Everything `runDeployment` computes before the `try` block: the
per-run derived context. -/
structure DeployCtx where
  deploymentId : Nat
  projectId : String
  dryRun : Bool
  proj : Project
  isAdminProject : Bool
  template : Option CommandTemplate
  env : List (String × String)
  secretKeys : List String
  runtimeType : String
  runtimePort : Option Nat
  safeDeployPath : String
  repoPath : String
  releasesDir : String
  currentLink : String
  previousLink : String

/-- Number(env.PORT) for the digit strings that occur in practice (the
NaN corner of `Number` on non-numeric strings is approximated by 0; no
theorem below depends on it). -/
def parseNatD (str : String) : Nat :=
  if str.data ≠ [] && str.data.all Char.isDigit then
    str.data.foldl (fun acc c => acc * 10 + (c.toNat - 48)) 0
  else 0

/-- The state effect of the pre-`try` phase: mark the record `running`
with the start timestamp. -/
def prePhaseSt (job : Job) (s0 : RunSt) : RunSt :=
  updDep { s0 with clock := s0.clock + 1 } job.deploymentId
    (fun d => { d with status := "running", startedAt := some s0.clock })

/-- The pure part of the pre-`try` phase: derive the deploy context
from the stored project (or the exception that escapes). -/
def prePhaseCtx (w : World) (cfg : EngineCfg) (job : Job) (stored : Option Project) :
    Except String DeployCtx :=
  match stored with
  | none => .error "TypeError: Cannot read properties of null (reading 'deployPath')"
  | some project =>
    let repoPath := pathResolveAbs (repoDir cfg.projectsDir job.projectId)
    let releasesDir := pathResolveAbs (releasesDirOf cfg.projectsDir job.projectId)
    match ensureDeployPathWithinRoot cfg.nginxRoot cfg.cwd (project.deployPath.getD "") with
    | .error e => .error e
    | .ok safeDeployPath =>
      let isAdminProject := (strVal project.ownerId).getD "admin" = "admin"
      let template :=
        if !isAdminProject && strT project.templateId then getTemplate project.templateId
        else none
      if !isAdminProject && template.isNone then
        .error "Command template missing or invalid for this project"
      else
        let envEntries := project.env.getD []
        match buildEnvMaps w.decrypt envEntries {} with
        | .error m => .error ("Failed to decrypt secrets: " ++ m)
        | .ok maps =>
          let env0 := mergeKV (mergeKV w.processEnv maps.plainEnv) maps.secretEnv
          let runtimeType := (strVal project.runtime).getD "static"
          let triple :=
            if runtimeType = "node" then
              let rp :=
                match natVal project.runtimePort with
                | some v => v
                | none =>
                  match natVal project.port with
                  | some v => v
                  | none => 4000 + w.randomPort % 1000
              let projMut :=
                if !natT project.runtimePort && !job.dryRun then
                  { project with runtimePort := some rp }
                else project
              (some rp, projMut, setKV env0 "PORT" (toString rp))
            else
              ((match natVal project.runtimePort with
                | some v => some v
                | none => natVal project.port), project, env0)
          let runtimePort1 := triple.1
          let projMut := triple.2.1
          let env1 := triple.2.2
          let runtimePort2 :=
            if !natT runtimePort1 then
              match env1.lookup "PORT" with
              | some pstr => if pstr ≠ "" then some (parseNatD pstr) else runtimePort1
              | none => runtimePort1
            else runtimePort1
          let env2 :=
            if natT projMut.runtimePort then
              setKV env1 "PORT" (toString (projMut.runtimePort.getD 0))
            else if natT projMut.port then
              setKV env1 "PORT" (toString (projMut.port.getD 0))
            else env1
          .ok {
            deploymentId := job.deploymentId, projectId := job.projectId,
            dryRun := job.dryRun, proj := projMut,
            isAdminProject := isAdminProject, template := template,
            env := env2, secretKeys := maps.secretKeys,
            runtimeType := runtimeType, runtimePort := runtimePort2,
            safeDeployPath := safeDeployPath, repoPath := repoPath,
            releasesDir := releasesDir,
            currentLink := currentSymlink cfg.projectsDir job.projectId,
            previousLink := previousSymlink cfg.projectsDir job.projectId }

/-- src/unnamed/part_002 `runDeployment`, lines before the `try` block:
mark the record `running`, load the project, re-check the deploy path,
resolve the template, build the env maps (decrypting secrets) and the
runtime-port bookkeeping.  An error here is NOT caught by the step
machine's catch — it propagates out of `runDeployment` (the record is
left `running`). -/
def prePhase (w : World) (cfg : EngineCfg) (job : Job) (s0 : RunSt) :
    RunSt × Except String DeployCtx :=
  (prePhaseSt job s0, prePhaseCtx w cfg job s0.stored)

/-- The `runStep(name, fn)` wrapper: record `running`, run the body,
record `success` or `failed` (with the error message), rethrow. -/
def runStepW (id : Nat) (name : String) (body : StepM) : StepM := fun s =>
  let (t1, s) := tick s
  let s := recordStep s id name
    (fun r => { r with status := "running", startedAt := some t1 })
  match body s with
  | (s1, none) =>
    let (t2, s2) := tick s1
    (recordStep s2 id name (fun r => { r with status := "success", finishedAt := some t2 }),
     none)
  | (s1, some e) =>
    let (t2, s2) := tick s1
    (recordStep s2 id name
      (fun r => { r with status := "failed", finishedAt := some t2, error := some e }),
     some e)

/-- Run wrapped steps in order, stopping at the first failure. -/
def runSeq (id : Nat) : List (String × StepM) → StepM
  | [] => fun s => (s, none)
  | (n, b) :: rest => fun s =>
    match runStepW id n b s with
    | (s1, none) => runSeq id rest s1
    | (s1, some e) => (s1, some e)

/-- The `sync` step body. -/
def syncBody (w : World) (ctx : DeployCtx) : StepM := fun s =>
  let repoExists := w.pathExists (jsJoinAbs ctx.repoPath ".git")
  let repo := ctx.proj.repo.getD ""
  let repoUrl := if repo.endsWith ".git" then repo else repo ++ ".git"
  let r :=
    if !repoExists then
      let s :=
        if !ctx.dryRun then
          { s with fsOps := s.fsOps ++ [FsOp.mkdirp (dirname ctx.repoPath)] }
        else s
      runCommandM w true "git"
        ["clone", "--branch", ctx.proj.branch.getD "", repoUrl, ctx.repoPath]
        ctx.secretKeys ctx.dryRun s
    else
      let r1 := runCommandM w true "git" ["fetch", "--all", "--prune"]
        ctx.secretKeys ctx.dryRun s
      match r1.err with
      | some _ => r1
      | none =>
        let r2 := runCommandM w true "git" ["checkout", ctx.proj.branch.getD ""]
          ctx.secretKeys ctx.dryRun r1.st
        match r2.err with
        | some _ => r2
        | none => runCommandM w true "git" ["pull", "--ff-only"]
            ctx.secretKeys ctx.dryRun r2.st
  match r.err with
  | some e => (r.st, some e)
  | none =>
    let r2 := runCommandM w true "git" ["rev-parse", "HEAD"]
      ctx.secretKeys ctx.dryRun r.st
    match r2.err with
    | some e => (r2.st, some e)
    | none =>
      let commit := jsTrim r2.out
      let s := { r2.st with commitHash := some commit }
      (updDep s ctx.deploymentId (fun d => { d with commit := some commit }), none)

/-- The `install` step body. -/
def installBody (w : World) (ctx : DeployCtx) : StepM := fun s =>
  let installCmd : Option String :=
    if ctx.isAdminProject then
      match strVal ctx.proj.installCommand with
      | some c => some c
      | none =>
        if w.pathExists (jsJoinAbs ctx.repoPath "package-lock.json") then some "npm ci"
        else if w.pathExists (jsJoinAbs ctx.repoPath "package.json") then
          some "npm install --production"
        else none
    else
      match ctx.template with
      | some t => strVal t.installCommand
      | none => none
  match installCmd with
  | some c =>
    let r := runShellCommandM w true c ctx.secretKeys ctx.dryRun s
    (r.st, r.err)
  | none => (logW s "No install command defined, skipping\n", none)

/-- The `test` step body. -/
def testBody (w : World) (ctx : DeployCtx) : StepM := fun s =>
  let testCmd :=
    if ctx.isAdminProject then strVal ctx.proj.testCommand
    else
      match ctx.template with
      | some t => strVal t.testCommand
      | none => none
  match testCmd with
  | none => (logW s "No test command, skipping\n", none)
  | some c =>
    let r := runShellCommandM w true c ctx.secretKeys ctx.dryRun s
    (r.st, r.err)

/-- The `build` step body. -/
def buildBody (w : World) (ctx : DeployCtx) : StepM := fun s =>
  let buildCmd :=
    if ctx.isAdminProject then
      some ((strVal ctx.proj.buildCommand).getD "npm run build")
    else
      match ctx.template with
      | some t => strVal t.buildCommand
      | none => none
  match buildCmd with
  | none => (s, some "Build command is not configured for this project/template")
  | some c =>
    let r := runShellCommandM w true c ctx.secretKeys ctx.dryRun s
    (r.st, r.err)

/-- `project.buildOutputDir || project.buildOutput || config.DEFAULT_BUILD_OUTPUT`. -/
def releaseOutputDir (cfg : EngineCfg) (proj : Project) : String :=
  match strVal proj.buildOutputDir with
  | some v => v
  | none =>
    match strVal proj.buildOutput with
    | some v => v
    | none => cfg.defaultBuildOutput

/-- The `release` step body: containment check for the build output,
release directory creation and copy, `previous`/`current`/deploy-path
symlink promotion. -/
def releaseBody (w : World) (cfg : EngineCfg) (ctx : DeployCtx) : StepM := fun s =>
  match ensureWithinBase ctx.repoPath (releaseOutputDir cfg ctx.proj) "Build output path" with
  | .error e => (s, some e)
  | .ok absOutput =>
    if !ctx.dryRun && !w.pathExists absOutput then
      (s, some ("Build output directory not found: " ++ absOutput))
    else
      let (t, s) := tick s
      let commitPart := String.mk (((strVal s.commitHash).getD "latest").data.take 7)
      let releaseName := toString t ++ "-" ++ commitPart
      let releasePath := jsJoinAbs ctx.releasesDir releaseName
      let s :=
        if !ctx.dryRun then
          { s with fsOps := s.fsOps ++ [FsOp.mkdirp releasePath, FsOp.cp absOutput releasePath] }
        else s
      let previousTarget := w.readlink ctx.currentLink
      let s :=
        if !ctx.dryRun then
          let s :=
            match previousTarget with
            | some tgt =>
              { s with fsOps := s.fsOps ++ [FsOp.rm ctx.previousLink, FsOp.symlink tgt ctx.previousLink] }
            | none => s
          { s with fsOps := s.fsOps ++
              [FsOp.rm ctx.currentLink, FsOp.symlink releasePath ctx.currentLink,
               FsOp.mkdirp (dirname ctx.safeDeployPath), FsOp.rm ctx.safeDeployPath,
               FsOp.symlink releasePath ctx.safeDeployPath] }
        else s
      ({ s with releasePath := some releasePath }, none)

/-- src/api/lib/nginxManager.js `writeConfig(projectId, options, logStream, dryRun)`. -/
def writeConfigM (w : World) (cfg : EngineCfg) (projectId : String)
    (runtime : String) (_deployPath : String) (runtimePort : Option Nat)
    (hasLog dryRun : Bool) (s : RunSt) : RunSt × Option String :=
  if runtime = "node" && !natT runtimePort then
    (s, some "runtimePort is required for node runtime")
  else
    let availablePath := jsJoinAbs cfg.sitesAvailable ("deployer-" ++ projectId ++ ".conf")
    let enabledPath := jsJoinAbs cfg.sitesEnabled ("deployer-" ++ projectId ++ ".conf")
    let s := if hasLog then logW s ("Writing nginx config " ++ availablePath ++ "\n") else s
    let s :=
      if !dryRun then
        { s with fsOps := s.fsOps ++
            [FsOp.mkdirp cfg.sitesAvailable, FsOp.mkdirp cfg.sitesEnabled,
             FsOp.writeFile availablePath, FsOp.symlink availablePath enabledPath] }
      else s
    let r1 := runCommandM w hasLog "nginx" ["-t"] [] dryRun s
    match r1.err with
    | some e => (r1.st, some e)
    | none =>
      let r2 := runCommandM w hasLog "systemctl" ["reload", "nginx"] [] dryRun r1.st
      (r2.st, r2.err)

/-- The `nginx` step body. -/
def nginxBody (w : World) (cfg : EngineCfg) (ctx : DeployCtx) : StepM := fun s =>
  writeConfigM w cfg ctx.projectId ctx.runtimeType ctx.safeDeployPath ctx.runtimePort
    true ctx.dryRun s

/-- The `runtime` step body (pm2 for `node`, no-op otherwise). -/
def runtimeBody (w : World) (cfg : EngineCfg) (ctx : DeployCtx) : StepM := fun s =>
  if ctx.runtimeType ≠ "node" then (logW s "Runtime not node, skipping pm2\n", none)
  else
    let startCmd :=
      if ctx.isAdminProject then strVal ctx.proj.startCommand
      else
        match ctx.template with
        | some t => strVal t.startCommand
        | none => none
    match startCmd with
    | none => (s, some "startCommand required for node runtime")
    | some cmd =>
      let currentRelease? : Except String String :=
        if ctx.dryRun then .ok (s.releasePath.getD "")
        else
          match w.readlink ctx.currentLink with
          | some tgt => .ok tgt
          | none => .error ("ENOENT: no such file or directory, readlink '" ++ ctx.currentLink ++ "'")
      match currentRelease? with
      | .error e => (s, some e)
      | .ok currentRelease =>
        let r := runCommandM w true cfg.pm2Bin
          ["start", "bash", "--name", ctx.projectId, "--cwd", currentRelease,
           "--update-env", "--", "-lc", cmd]
          ctx.secretKeys ctx.dryRun s
        (r.st, r.err)

/-- The seven-step pipeline, in engine order. -/
def pipeline (w : World) (cfg : EngineCfg) (ctx : DeployCtx) : List (String × StepM) :=
  [("sync", syncBody w ctx), ("install", installBody w ctx),
   ("test", testBody w ctx), ("build", buildBody w ctx),
   ("release", releaseBody w cfg ctx), ("nginx", nginxBody w cfg ctx),
   ("runtime", runtimeBody w cfg ctx)]

/-- src/unnamed/part_002 `runDeployment(job)`.  The second component is
an exception that escaped `runDeployment` itself (pre-`try` failures);
step failures are caught inside and turn the record `failed`. -/
def runDeployment (w : World) (cfg : EngineCfg) (job : Job) (s0 : RunSt) :
    RunSt × Option String :=
  match prePhase w cfg job s0 with
  | (s, .error e) => (s, some e)
  | (s, .ok ctx) =>
    let (s1, stepErr) := runSeq job.deploymentId (pipeline w cfg ctx) s
    let (s2, tryErr) :=
      match stepErr with
      | some e => (s1, some e)
      | none =>
        let (t, sa) := tick s1
        let sb := updDep sa job.deploymentId
          (fun d => { d with status := "success", finishedAt := some t })
        match sb.stored with
        | none => (sb, some "Project not found")
        | some stored =>
          ({ sb with stored := some { stored with
               lastDeploy := some t,
               lastCommit := sb.commitHash,
               runtimePort :=
                 if natT ctx.proj.runtimePort then ctx.proj.runtimePort
                 else stored.runtimePort } }, none)
    match tryErr with
    | none => (s2, none)
    | some e =>
      let (t, s3) := tick s2
      let s4 := updDep s3 job.deploymentId
        (fun d => { d with status := "failed", finishedAt := some t, error := some e })
      (logW s4 ("Deployment failed: " ++ e ++ "\n"), none)

/-- src/unnamed/part_002 `rollbackProject(projectId)`. -/
def rollbackProject (w : World) (cfg : EngineCfg) (projectId : String)
    (s : RunSt) : RunSt × Option String :=
  let currentLink := currentSymlink cfg.projectsDir projectId
  let previousLink := previousSymlink cfg.projectsDir projectId
  match w.readlink previousLink with
  | none => (s, some "No previous release to roll back to")
  | some previousTarget =>
    let s := { s with fsOps := s.fsOps ++
        [FsOp.rm currentLink, FsOp.symlink previousTarget currentLink] }
    match s.stored with
    | none => (s, some "Project not found")
    | some project =>
      if !strT project.deployPath then (s, some "Project missing deployPath")
      else
        match ensureDeployPathWithinRoot cfg.nginxRoot cfg.cwd (project.deployPath.getD "") with
        | .error e => (s, some e)
        | .ok safeDeployPath =>
          let s := { s with fsOps := s.fsOps ++
              [FsOp.rm safeDeployPath, FsOp.symlink previousTarget safeDeployPath] }
          let (s, werr) := writeConfigM w cfg projectId
            ((strVal project.runtime).getD "static") safeDeployPath
            (match natVal project.runtimePort with
             | some v => some v
             | none => natVal project.port)
            false false s
          match werr with
          | some e => (s, some e)
          | none =>
            if (strVal project.runtime).getD "static" = "node" && strT project.startCommand then
              let r := runCommandM w false cfg.pm2Bin ["restart", projectId] [] false s
              (r.st, r.err)
            else (s, none)

deriving instance DecidableEq for Except

instance (base p : String) : Decidable (underDir base p) := by
  unfold underDir; infer_instance

/-! ## Concrete fixtures used by witness and counterexample theorems -/

/-- A benign external world: every path exists, every command exits 0
with fixed output, no symlinks, decryption unavailable. -/
def fixWorld : World :=
  { pathExists := fun _ => true, runCmd := fun _ _ => (0, "abc1234def\n"),
    readlink := fun _ => none, decrypt := fun _ => .error "secret decrypt failure",
    randomPort := 7, processEnv := [] }

/-- A trivial GCM primitive (zero keystream, zero tag): witnesses
instantiate the primitive-polymorphic codec theorems with it. -/
def fixPrim : GcmPrim :=
  { ks := fun _ _ _ => 0,
    mac := fun _ _ _ => List.replicate 16 0,
    hash := fun _ => [],
    mac_len := fun _ _ _ => List.length_replicate 16 0,
    mac_lt := fun _ _ _ b hb => by
      have hz : b = 0 := List.eq_of_mem_replicate hb
      omega }

/-- A valid admin-owned static project. -/
def fixProject : Project :=
  { repo := some "https://github.com/o/r", branch := some "main",
    buildCommand := some "npm run build", buildOutput := some "build",
    deployPath := some "/var/www/p1", runtime := some "static",
    ownerId := some "admin", env := some [] }

/-- The deploy context the engine derives for `fixProject` (real run). -/
def fixCtx : DeployCtx :=
  { deploymentId := 0, projectId := "p1", dryRun := false,
    proj := fixProject,
    isAdminProject := true, template := none, env := [], secretKeys := [],
    runtimeType := "static", runtimePort := none,
    safeDeployPath := "/var/www/p1",
    repoPath := "/var/deploy/projects/p1/repo",
    releasesDir := "/var/deploy/projects/p1/releases",
    currentLink := "/var/deploy/projects/p1/current",
    previousLink := "/var/deploy/projects/p1/previous" }

/-- A world in which every subprocess exits 1 (with empty output);
`pathExists` still answers true and decryption is unavailable. -/
def failWorld : World :=
  { pathExists := fun _ => true,
    runCmd := fun _ _ => (1, ""),
    readlink := fun _ => none, decrypt := fun _ => .error "secret decrypt failure",
    randomPort := 7, processEnv := [] }

/-- The engine configuration with all defaults. -/
def fixCfg : EngineCfg := {}

/-- A real (non-dry-run) job for project p1, deployment id 0. -/
def fixJob : Job := { deploymentId := 0, projectId := "p1", dryRun := false }

/-- The freshly created queued record for `fixJob` (empty step map). -/
def fixDep0 : DeploymentRecord :=
  { deploymentId := 0, projectId := "p1", status := "queued", dryRun := false }

/-- Initial worker state: the queued record and the stored project. -/
def fixS0 : RunSt := { ds := [fixDep0], stored := some fixProject }

/-- Under `failWorld` the very first step fails, so no step precedes it. -/
def failPre : List (String × StepM) := []

/-- The pipeline steps after the failing sync step. -/
def failPost : List (String × StepM) :=
  [("install", installBody failWorld fixCtx), ("test", testBody failWorld fixCtx),
   ("build", buildBody failWorld fixCtx),
   ("release", releaseBody failWorld fixCfg fixCtx),
   ("nginx", nginxBody failWorld fixCfg fixCtx),
   ("runtime", runtimeBody failWorld fixCfg fixCtx)]

/-- The state entering the failing step (no step has run yet). -/
def failS2 : RunSt := prePhaseSt fixJob fixS0

/-- The state after the failing sync step. -/
def failS3 : RunSt :=
  (runStepW 0 "sync" (syncBody failWorld fixCtx) failS2).1

/-- The error the failing sync step throws (`git fetch` exits 1). -/
def syncFailMsg : String :=
  "Command \"git fetch --all --prune\" exited with code 1"

/-- A dry-run job for project p1, deployment id 0. -/
def dryJob : Job := { deploymentId := 0, projectId := "p1", dryRun := true }

/-- The freshly created queued record for `dryJob`. -/
def dryDep0 : DeploymentRecord :=
  { deploymentId := 0, projectId := "p1", status := "queued", dryRun := true }

/-- Initial worker state for the dry run. -/
def dryS0 : RunSt := { ds := [dryDep0], stored := some fixProject }

/-- The deploy context the engine derives for `fixProject` (dry run). -/
def dryCtx : DeployCtx := { fixCtx with dryRun := true }

/-- Dry-run state after the sync step. -/
def dry1 : RunSt :=
  { ds := [{ deploymentId := 0, projectId := "p1", status := "running", dryRun := true, createdAt := 0, startedAt := some 0, finishedAt := none, commit := some "", error := none, steps := [("sync", { status := "success", startedAt := some 1, finishedAt := some 2, error := none })] }], stored := some { repo := some "https://github.com/o/r", branch := some "main", buildCommand := some "npm run build", installCommand := none, testCommand := none, startCommand := none, buildOutputDir := none, buildOutput := some "build", deployPath := some "/var/www/p1", runtime := some "static", domain := none, ownerId := some "admin", templateId := none, runtimePort := none, port := none, env := some [], lastDeploy := none, lastCommit := none }, log := ["[dry-run] git fetch --all --prune\n", "[dry-run] git checkout main\n", "[dry-run] git pull --ff-only\n", "[dry-run] git rev-parse HEAD\n"], clock := 3, commitHash := some "", releasePath := none, fsOps := [] }

/-- Dry-run state after the install step. -/
def dry2 : RunSt :=
  { ds := [{ deploymentId := 0, projectId := "p1", status := "running", dryRun := true, createdAt := 0, startedAt := some 0, finishedAt := none, commit := some "", error := none, steps := [("sync", { status := "success", startedAt := some 1, finishedAt := some 2, error := none }), ("install", { status := "success", startedAt := some 3, finishedAt := some 4, error := none })] }], stored := some { repo := some "https://github.com/o/r", branch := some "main", buildCommand := some "npm run build", installCommand := none, testCommand := none, startCommand := none, buildOutputDir := none, buildOutput := some "build", deployPath := some "/var/www/p1", runtime := some "static", domain := none, ownerId := some "admin", templateId := none, runtimePort := none, port := none, env := some [], lastDeploy := none, lastCommit := none }, log := ["[dry-run] git fetch --all --prune\n", "[dry-run] git checkout main\n", "[dry-run] git pull --ff-only\n", "[dry-run] git rev-parse HEAD\n", "[dry-run] bash -lc npm ci\n"], clock := 5, commitHash := some "", releasePath := none, fsOps := [] }

/-- Dry-run state after the test step. -/
def dry3 : RunSt :=
  { ds := [{ deploymentId := 0, projectId := "p1", status := "running", dryRun := true, createdAt := 0, startedAt := some 0, finishedAt := none, commit := some "", error := none, steps := [("sync", { status := "success", startedAt := some 1, finishedAt := some 2, error := none }), ("install", { status := "success", startedAt := some 3, finishedAt := some 4, error := none }), ("test", { status := "success", startedAt := some 5, finishedAt := some 6, error := none })] }], stored := some { repo := some "https://github.com/o/r", branch := some "main", buildCommand := some "npm run build", installCommand := none, testCommand := none, startCommand := none, buildOutputDir := none, buildOutput := some "build", deployPath := some "/var/www/p1", runtime := some "static", domain := none, ownerId := some "admin", templateId := none, runtimePort := none, port := none, env := some [], lastDeploy := none, lastCommit := none }, log := ["[dry-run] git fetch --all --prune\n", "[dry-run] git checkout main\n", "[dry-run] git pull --ff-only\n", "[dry-run] git rev-parse HEAD\n", "[dry-run] bash -lc npm ci\n", "No test command, skipping\n"], clock := 7, commitHash := some "", releasePath := none, fsOps := [] }

/-- Dry-run state after the build step. -/
def dry4 : RunSt :=
  { ds := [{ deploymentId := 0, projectId := "p1", status := "running", dryRun := true, createdAt := 0, startedAt := some 0, finishedAt := none, commit := some "", error := none, steps := [("sync", { status := "success", startedAt := some 1, finishedAt := some 2, error := none }), ("install", { status := "success", startedAt := some 3, finishedAt := some 4, error := none }), ("test", { status := "success", startedAt := some 5, finishedAt := some 6, error := none }), ("build", { status := "success", startedAt := some 7, finishedAt := some 8, error := none })] }], stored := some { repo := some "https://github.com/o/r", branch := some "main", buildCommand := some "npm run build", installCommand := none, testCommand := none, startCommand := none, buildOutputDir := none, buildOutput := some "build", deployPath := some "/var/www/p1", runtime := some "static", domain := none, ownerId := some "admin", templateId := none, runtimePort := none, port := none, env := some [], lastDeploy := none, lastCommit := none }, log := ["[dry-run] git fetch --all --prune\n", "[dry-run] git checkout main\n", "[dry-run] git pull --ff-only\n", "[dry-run] git rev-parse HEAD\n", "[dry-run] bash -lc npm ci\n", "No test command, skipping\n", "[dry-run] bash -lc npm run build\n"], clock := 9, commitHash := some "", releasePath := none, fsOps := [] }

/-- Dry-run state after the release step. -/
def dry5 : RunSt :=
  { ds := [{ deploymentId := 0, projectId := "p1", status := "running", dryRun := true, createdAt := 0, startedAt := some 0, finishedAt := none, commit := some "", error := none, steps := [("sync", { status := "success", startedAt := some 1, finishedAt := some 2, error := none }), ("install", { status := "success", startedAt := some 3, finishedAt := some 4, error := none }), ("test", { status := "success", startedAt := some 5, finishedAt := some 6, error := none }), ("build", { status := "success", startedAt := some 7, finishedAt := some 8, error := none }), ("release", { status := "success", startedAt := some 9, finishedAt := some 11, error := none })] }], stored := some { repo := some "https://github.com/o/r", branch := some "main", buildCommand := some "npm run build", installCommand := none, testCommand := none, startCommand := none, buildOutputDir := none, buildOutput := some "build", deployPath := some "/var/www/p1", runtime := some "static", domain := none, ownerId := some "admin", templateId := none, runtimePort := none, port := none, env := some [], lastDeploy := none, lastCommit := none }, log := ["[dry-run] git fetch --all --prune\n", "[dry-run] git checkout main\n", "[dry-run] git pull --ff-only\n", "[dry-run] git rev-parse HEAD\n", "[dry-run] bash -lc npm ci\n", "No test command, skipping\n", "[dry-run] bash -lc npm run build\n"], clock := 12, commitHash := some "", releasePath := some "/var/deploy/projects/p1/releases/10-latest", fsOps := [] }

/-- Dry-run state after the nginx step. -/
def dry6 : RunSt :=
  { ds := [{ deploymentId := 0, projectId := "p1", status := "running", dryRun := true, createdAt := 0, startedAt := some 0, finishedAt := none, commit := some "", error := none, steps := [("sync", { status := "success", startedAt := some 1, finishedAt := some 2, error := none }), ("install", { status := "success", startedAt := some 3, finishedAt := some 4, error := none }), ("test", { status := "success", startedAt := some 5, finishedAt := some 6, error := none }), ("build", { status := "success", startedAt := some 7, finishedAt := some 8, error := none }), ("release", { status := "success", startedAt := some 9, finishedAt := some 11, error := none }), ("nginx", { status := "success", startedAt := some 12, finishedAt := some 13, error := none })] }], stored := some { repo := some "https://github.com/o/r", branch := some "main", buildCommand := some "npm run build", installCommand := none, testCommand := none, startCommand := none, buildOutputDir := none, buildOutput := some "build", deployPath := some "/var/www/p1", runtime := some "static", domain := none, ownerId := some "admin", templateId := none, runtimePort := none, port := none, env := some [], lastDeploy := none, lastCommit := none }, log := ["[dry-run] git fetch --all --prune\n", "[dry-run] git checkout main\n", "[dry-run] git pull --ff-only\n", "[dry-run] git rev-parse HEAD\n", "[dry-run] bash -lc npm ci\n", "No test command, skipping\n", "[dry-run] bash -lc npm run build\n", "Writing nginx config /etc/nginx/sites-available/deployer-p1.conf\n", "[dry-run] nginx -t\n", "[dry-run] systemctl reload nginx\n"], clock := 14, commitHash := some "", releasePath := some "/var/deploy/projects/p1/releases/10-latest", fsOps := [] }

/-- Dry-run state after the runtime step (end of the step machine). -/
def dry7 : RunSt :=
  { ds := [{ deploymentId := 0, projectId := "p1", status := "running", dryRun := true, createdAt := 0, startedAt := some 0, finishedAt := none, commit := some "", error := none, steps := [("sync", { status := "success", startedAt := some 1, finishedAt := some 2, error := none }), ("install", { status := "success", startedAt := some 3, finishedAt := some 4, error := none }), ("test", { status := "success", startedAt := some 5, finishedAt := some 6, error := none }), ("build", { status := "success", startedAt := some 7, finishedAt := some 8, error := none }), ("release", { status := "success", startedAt := some 9, finishedAt := some 11, error := none }), ("nginx", { status := "success", startedAt := some 12, finishedAt := some 13, error := none }), ("runtime", { status := "success", startedAt := some 14, finishedAt := some 15, error := none })] }], stored := some { repo := some "https://github.com/o/r", branch := some "main", buildCommand := some "npm run build", installCommand := none, testCommand := none, startCommand := none, buildOutputDir := none, buildOutput := some "build", deployPath := some "/var/www/p1", runtime := some "static", domain := none, ownerId := some "admin", templateId := none, runtimePort := none, port := none, env := some [], lastDeploy := none, lastCommit := none }, log := ["[dry-run] git fetch --all --prune\n", "[dry-run] git checkout main\n", "[dry-run] git pull --ff-only\n", "[dry-run] git rev-parse HEAD\n", "[dry-run] bash -lc npm ci\n", "No test command, skipping\n", "[dry-run] bash -lc npm run build\n", "Writing nginx config /etc/nginx/sites-available/deployer-p1.conf\n", "[dry-run] nginx -t\n", "[dry-run] systemctl reload nginx\n", "Runtime not node, skipping pm2\n"], clock := 16, commitHash := some "", releasePath := some "/var/deploy/projects/p1/releases/10-latest", fsOps := [] }

/-- Dry-run state returned by the whole dry `runDeployment` (note `stored.lastDeploy`). -/
def dryFinal : RunSt :=
  { ds := [{ deploymentId := 0, projectId := "p1", status := "success", dryRun := true, createdAt := 0, startedAt := some 0, finishedAt := some 16, commit := some "", error := none, steps := [("sync", { status := "success", startedAt := some 1, finishedAt := some 2, error := none }), ("install", { status := "success", startedAt := some 3, finishedAt := some 4, error := none }), ("test", { status := "success", startedAt := some 5, finishedAt := some 6, error := none }), ("build", { status := "success", startedAt := some 7, finishedAt := some 8, error := none }), ("release", { status := "success", startedAt := some 9, finishedAt := some 11, error := none }), ("nginx", { status := "success", startedAt := some 12, finishedAt := some 13, error := none }), ("runtime", { status := "success", startedAt := some 14, finishedAt := some 15, error := none })] }], stored := some { repo := some "https://github.com/o/r", branch := some "main", buildCommand := some "npm run build", installCommand := none, testCommand := none, startCommand := none, buildOutputDir := none, buildOutput := some "build", deployPath := some "/var/www/p1", runtime := some "static", domain := none, ownerId := some "admin", templateId := none, runtimePort := none, port := none, env := some [], lastDeploy := some 16, lastCommit := some "" }, log := ["[dry-run] git fetch --all --prune\n", "[dry-run] git checkout main\n", "[dry-run] git pull --ff-only\n", "[dry-run] git rev-parse HEAD\n", "[dry-run] bash -lc npm ci\n", "No test command, skipping\n", "[dry-run] bash -lc npm run build\n", "Writing nginx config /etc/nginx/sites-available/deployer-p1.conf\n", "[dry-run] nginx -t\n", "[dry-run] systemctl reload nginx\n", "Runtime not node, skipping pm2\n"], clock := 17, commitHash := some "", releasePath := some "/var/deploy/projects/p1/releases/10-latest", fsOps := [] }

/-! # Theorems

## Path-normalization lemmas -/

theorem splitSlashAux_nil (cur : List Char) :
    splitSlashAux cur [] = [String.mk cur.reverse] := rfl

theorem splitSlashAux_cons_sep (cur rest : List Char) :
    splitSlashAux cur ('/' :: rest) = String.mk cur.reverse :: splitSlashAux [] rest := by
  simp [splitSlashAux]

theorem splitSlashAux_cons_ns (cur : List Char) (c : Char) (rest : List Char)
    (h : c ≠ '/') : splitSlashAux cur (c :: rest) = splitSlashAux (c :: cur) rest := by
  simp [splitSlashAux, h]

theorem splitSlashAux_no_slash :
    ∀ (l cur : List Char), '/' ∉ cur → ∀ c ∈ splitSlashAux cur l, '/' ∉ c.data := by
  intro l
  induction l with
  | nil =>
    intro cur h c hc
    rw [splitSlashAux_nil] at hc
    rcases List.mem_singleton.mp hc with rfl
    intro hmem
    exact h (List.mem_reverse.mp hmem)
  | cons ch rest ih =>
    intro cur h c hc
    by_cases hch : ch = '/'
    · subst hch
      rw [splitSlashAux_cons_sep] at hc
      rcases List.mem_cons.mp hc with rfl | hc
      · intro hmem
        exact h (List.mem_reverse.mp hmem)
      · exact ih [] (by simp) c hc
    · rw [splitSlashAux_cons_ns cur ch rest hch] at hc
      refine ih (ch :: cur) ?_ c hc
      intro hmem
      rcases List.mem_cons.mp hmem with h1 | h1
      · exact hch h1.symm
      · exact h h1

theorem splitSlash_no_slash (s : String) : ∀ c ∈ splitSlash s, '/' ∉ c.data :=
  splitSlashAux_no_slash s.data [] (by simp)

theorem foldl_norm_clean :
    ∀ (cs acc : List String), (∀ c ∈ cs, '/' ∉ c.data) → CleanComps acc →
      CleanComps (cs.foldl
        (fun acc c =>
          if c = "" || c = "." then acc
          else if c = ".." then acc.dropLast
          else acc ++ [c]) acc) := by
  intro cs
  induction cs with
  | nil => intro acc _ hacc; exact hacc
  | cons c rest ih =>
    intro acc hcs hacc
    rw [List.foldl_cons]
    refine ih _ (fun x hx => hcs x (List.mem_cons_of_mem _ hx)) ?_
    by_cases h1 : c = "" || c = "."
    · simpa [h1] using hacc
    · by_cases h2 : c = ".."
      · simp only [h1, Bool.false_eq_true, if_false, h2, if_pos rfl]
        exact fun x hx => hacc x (List.dropLast_subset _ hx)
      · simp only [h1, Bool.false_eq_true, if_false, h2, if_neg h2]
        intro x hx
        rcases List.mem_append.mp hx with hx | hx
        · exact hacc x hx
        · rcases List.mem_singleton.mp hx with rfl
          simp only [Bool.or_eq_true, decide_eq_true_eq] at h1
          push_neg at h1
          exact ⟨h1.1, h1.2, h2, hcs x (List.mem_cons_self _ _)⟩

theorem resolveComps_clean (cs : List String) (h : ∀ c ∈ cs, '/' ∉ c.data) :
    CleanComps (resolveComps cs) :=
  foldl_norm_clean cs [] h (by intro c hc; simp at hc)

theorem normPath_clean (s : String) : CleanComps (normPath s) :=
  resolveComps_clean _ (splitSlash_no_slash s)

theorem foldl_norm_of_clean :
    ∀ (cs acc : List String), CleanComps cs →
      cs.foldl
        (fun acc c =>
          if c = "" || c = "." then acc
          else if c = ".." then acc.dropLast
          else acc ++ [c]) acc = acc ++ cs := by
  intro cs
  induction cs with
  | nil => intro acc _; simp
  | cons c rest ih =>
    intro acc hcs
    obtain ⟨h1, h2, h3, _⟩ := hcs c (List.mem_cons_self _ _)
    rw [List.foldl_cons]
    have hcond : ((c = "" || c = ".") : Bool) = false := by
      simp [h1, h2]
    simp only [hcond, Bool.false_eq_true, if_false, if_neg h3]
    rw [ih (acc ++ [c]) (fun x hx => hcs x (List.mem_cons_of_mem _ hx))]
    simp

theorem resolveComps_of_clean (cs : List String) (h : CleanComps cs) :
    resolveComps cs = cs := by
  unfold resolveComps
  rw [foldl_norm_of_clean cs [] h]
  simp

theorem joinComps_cons (x : String) (rest : List String) (h : rest ≠ []) :
    joinComps (x :: rest) = x.data ++ '/' :: joinComps rest := by
  cases rest with
  | nil => exact absurd rfl h
  | cons y ys => rfl

theorem splitSlashAux_of_no_slash :
    ∀ (a cur : List Char), '/' ∉ a →
      splitSlashAux cur a = [String.mk (cur.reverse ++ a)] := by
  intro a
  induction a with
  | nil => intro cur _; rw [splitSlashAux_nil]; simp
  | cons c rest ih =>
    intro cur h
    have hc : c ≠ '/' := fun hc => h (hc ▸ List.mem_cons_self _ _)
    have hrest : '/' ∉ rest := fun hm => h (List.mem_cons_of_mem _ hm)
    rw [splitSlashAux_cons_ns cur c rest hc, ih (c :: cur) hrest]
    simp

theorem splitSlashAux_sep :
    ∀ (a cur t : List Char), '/' ∉ a →
      splitSlashAux cur (a ++ '/' :: t) =
        String.mk (cur.reverse ++ a) :: splitSlashAux [] t := by
  intro a
  induction a with
  | nil => intro cur t _; rw [List.nil_append, splitSlashAux_cons_sep]; simp
  | cons c rest ih =>
    intro cur t h
    have hc : c ≠ '/' := fun hc => h (hc ▸ List.mem_cons_self _ _)
    have hrest : '/' ∉ rest := fun hm => h (List.mem_cons_of_mem _ hm)
    rw [List.cons_append, splitSlashAux_cons_ns cur c _ hc, ih (c :: cur) t hrest]
    simp

theorem splitSlashAux_joinComps :
    ∀ (cs : List String), CleanComps cs → cs ≠ [] →
      splitSlashAux [] (joinComps cs) = cs := by
  intro cs
  induction cs with
  | nil => intro _ h; exact absurd rfl h
  | cons x rest ih =>
    intro hclean _
    have hx : '/' ∉ x.data := (hclean x (List.mem_cons_self _ _)).2.2.2
    by_cases hr : rest = []
    · subst hr
      have h1 : joinComps [x] = x.data := rfl
      rw [h1, splitSlashAux_of_no_slash x.data [] hx]
      simp
    · rw [joinComps_cons x rest hr, splitSlashAux_sep x.data [] (joinComps rest) hx,
        ih (fun c hc => hclean c (List.mem_cons_of_mem _ hc)) hr]
      simp

theorem normPath_renderAbs (cs : List String) (h : CleanComps cs) :
    normPath (renderAbs cs) = cs := by
  cases cs with
  | nil => rfl
  | cons x rest =>
    show resolveComps (splitSlashAux [] (String.mk ('/' :: joinComps (x :: rest))).data) = _
    have hdata : (String.mk ('/' :: joinComps (x :: rest))).data
        = '/' :: joinComps (x :: rest) := rfl
    rw [hdata, splitSlashAux_cons_sep, splitSlashAux_joinComps _ h (by simp)]
    have h2 : String.mk (([] : List Char).reverse) = "" := rfl
    rw [h2]
    have h3 : resolveComps ("" :: x :: rest) = resolveComps (x :: rest) := rfl
    rw [h3, resolveComps_of_clean _ h]

theorem normPath_pathResolveAbs (s : String) : normPath (pathResolveAbs s) = normPath s :=
  normPath_renderAbs _ (normPath_clean s)

theorem sep_cancel :
    ∀ (a b u v : List Char), '/' ∉ a → '/' ∉ b →
      (a ++ '/' :: u) <+: (b ++ '/' :: v) → a = b ∧ u <+: v := by
  intro a
  induction a with
  | nil =>
    intro b u v _ hb h
    cases b with
    | nil =>
      simp only [List.nil_append] at h
      exact ⟨rfl, (List.cons_prefix_cons.mp h).2⟩
    | cons d b' =>
      simp only [List.nil_append, List.cons_append] at h
      obtain ⟨hd, _⟩ := List.cons_prefix_cons.mp h
      exact absurd (hd ▸ List.mem_cons_self d b') hb
  | cons c a' ih =>
    intro b u v ha hb h
    cases b with
    | nil =>
      simp only [List.cons_append, List.nil_append] at h
      obtain ⟨hd, _⟩ := List.cons_prefix_cons.mp h
      exact absurd (hd ▸ List.mem_cons_self c a') ha
    | cons d b' =>
      simp only [List.cons_append] at h
      obtain ⟨hd, hrest⟩ := List.cons_prefix_cons.mp h
      have ha' : '/' ∉ a' := fun hm => ha (List.mem_cons_of_mem _ hm)
      have hb' : '/' ∉ b' := fun hm => hb (List.mem_cons_of_mem _ hm)
      obtain ⟨heq, hpre⟩ := ih b' u v ha' hb' hrest
      exact ⟨by rw [hd, heq], hpre⟩

theorem joinComps_sep_leading :
    ∀ (xs ys : List String),
      (∀ c ∈ xs, '/' ∉ c.data) → (∀ c ∈ ys, '/' ∉ c.data) →
      (joinComps xs ++ ['/']) <+: joinComps ys → xs <+: ys ∧ xs ≠ ys := by
  intro xs
  induction xs with
  | nil =>
    intro ys _ hys h
    cases ys with
    | nil =>
      exfalso
      have h0 : joinComps ([] : List String) ++ ['/'] = ['/'] := rfl
      rw [h0] at h
      exact absurd (List.prefix_nil.mp h) (by simp)
    | cons y ys' => exact ⟨List.nil_prefix, by simp⟩
  | cons x xs' ih =>
    intro ys hxs hys h
    have hx : '/' ∉ x.data := hxs x (List.mem_cons_self _ _)
    cases ys with
    | nil =>
      exfalso
      have hnil := List.prefix_nil.mp h
      have hm : '/' ∈ joinComps (x :: xs') ++ ['/'] := by simp
      rw [hnil] at hm
      exact absurd hm (by simp)
    | cons y ys' =>
      have hy : '/' ∉ y.data := hys y (List.mem_cons_self _ _)
      by_cases hys'nil : ys' = []
      · exfalso
        subst hys'nil
        have hsub : '/' ∈ joinComps [y] := h.subset (by simp)
        exact hy hsub
      · rw [joinComps_cons y ys' hys'nil] at h
        by_cases hxs'nil : xs' = []
        · subst hxs'nil
          have hx1 : joinComps [x] ++ ['/'] = x.data ++ '/' :: ([] : List Char) := rfl
          rw [hx1] at h
          obtain ⟨hxy, _⟩ := sep_cancel x.data y.data [] (joinComps ys') hx hy h
          have hxy' : x = y := String.ext hxy
          subst hxy'
          refine ⟨List.cons_prefix_cons.mpr ⟨rfl, List.nil_prefix⟩, ?_⟩
          intro hq
          have : ([] : List String) = ys' := (List.cons.injEq _ _ _ _ ▸ hq).2
          exact hys'nil this.symm
        · rw [joinComps_cons x xs' hxs'nil] at h
          have hres : (x.data ++ '/' :: (joinComps xs' ++ ['/'])) <+:
              (y.data ++ '/' :: joinComps ys') := by
            simpa [List.append_assoc] using h
          obtain ⟨hxy, hpre⟩ := sep_cancel x.data y.data _ _ hx hy hres
          have hxy' : x = y := String.ext hxy
          subst hxy'
          obtain ⟨hp, hne⟩ := ih ys'
            (fun c hc => hxs c (List.mem_cons_of_mem _ hc))
            (fun c hc => hys c (List.mem_cons_of_mem _ hc)) hpre
          refine ⟨List.cons_prefix_cons.mpr ⟨rfl, hp⟩, ?_⟩
          intro hq
          have : xs' = ys' := (List.cons.injEq _ _ _ _ ▸ hq).2
          exact hne this

theorem jsResolve2_eq (base cand : String) :
    ∃ u, jsResolve2 base cand = pathResolveAbs u := by
  unfold jsResolve2
  by_cases h : jsStartsWith cand "/" = true
  · exact ⟨cand, by simp [h]⟩
  · exact ⟨base ++ "/" ++ cand, by simp [h]⟩

theorem startsWith_sep_normPath (base t : String)
    (h : jsStartsWith (pathResolveAbs t) (pathResolveAbs base ++ "/") = true) :
    normPath base <+: normPath t := by
  rw [jsStartsWith, List.isPrefixOf_iff_prefix] at h
  have hdata : (pathResolveAbs base ++ "/").data
      = '/' :: (joinComps (normPath base) ++ ['/']) := by
    rw [String.data_append]
    show ('/' :: joinComps (normPath base)) ++ ['/'] = _
    rw [List.cons_append]
  have hdata2 : (pathResolveAbs t).data = '/' :: joinComps (normPath t) := rfl
  rw [hdata, hdata2] at h
  have h2 := (List.cons_prefix_cons.mp h).2
  exact (joinComps_sep_leading (normPath base) (normPath t)
    (fun c hc => (normPath_clean base c hc).2.2.2)
    (fun c hc => (normPath_clean t c hc).2.2.2) h2).1

theorem ensureWithinBase_under (baseDir candidate fieldName r : String)
    (h : ensureWithinBase baseDir candidate fieldName = .ok r) :
    underDir baseDir r := by
  simp only [ensureWithinBase] at h
  obtain ⟨u, hu⟩ := jsResolve2_eq (pathResolveAbs baseDir)
    (if candidate = "" then "." else candidate)
  rw [hu] at h
  split at h
  · rename_i heq
    have hr : r = pathResolveAbs baseDir := by
      cases h
      exact heq
    subst hr
    unfold underDir
    rw [normPath_pathResolveAbs]
  · split at h
    · cases h
    · rename_i hsw
      have hr : r = pathResolveAbs u := by cases h; rfl
      subst hr
      rw [Bool.not_eq_true', Bool.not_eq_false] at hsw
      unfold underDir
      rw [normPath_pathResolveAbs]
      exact startsWith_sep_normPath baseDir u hsw

theorem ensureDeployPathWithinRoot_under (nginxRoot cwd deployPath r : String)
    (h : ensureDeployPathWithinRoot nginxRoot cwd deployPath = .ok r) :
    underDir nginxRoot r := by
  simp only [ensureDeployPathWithinRoot] at h
  obtain ⟨u, hu⟩ := jsResolve2_eq cwd deployPath
  rw [hu] at h
  split at h
  · rename_i heq
    have hr : r = pathResolveAbs nginxRoot := by cases h; exact heq
    subst hr
    unfold underDir
    rw [normPath_pathResolveAbs]
  · split at h
    · cases h
    · rename_i hsw
      have hr : r = pathResolveAbs u := by cases h; rfl
      subst hr
      rw [Bool.not_eq_true', Bool.not_eq_false] at hsw
      unfold underDir
      rw [normPath_pathResolveAbs]
      exact startsWith_sep_normPath nginxRoot u hsw

/-! ## Claim C8 -/

/-- C8: for every configured buildOutput path (relative or absolute,
including paths containing `..`), the release step either fails before
creating the release (it performs no filesystem operation at all) or
copies from a resolved source directory that equals the repo root or
lies within it; a buildOutput that escapes the repo root is rejected by
`ensureWithinBase`. -/
theorem C8_build_output_contained (w : World) (cfg : EngineCfg) (ctx : DeployCtx) (s : RunSt) :
    ((releaseBody w cfg ctx s).2.isSome → (releaseBody w cfg ctx s).1.fsOps = s.fsOps) ∧
    (∀ src dst, FsOp.cp src dst ∈ (releaseBody w cfg ctx s).1.fsOps →
      FsOp.cp src dst ∉ s.fsOps → underDir ctx.repoPath src) := by
  cases hob : ensureWithinBase ctx.repoPath (releaseOutputDir cfg ctx.proj)
      "Build output path" with
  | error e0 =>
    refine ⟨?_, ?_⟩
    · intro _
      simp [releaseBody, hob]
    · intro src dst hmem hnot
      simp only [releaseBody, hob] at hmem
      exact absurd hmem hnot
  | ok absOutput =>
    have hunder := ensureWithinBase_under _ _ _ _ hob
    by_cases hex : (!ctx.dryRun && !w.pathExists absOutput) = true
    · refine ⟨?_, ?_⟩
      · intro _
        simp [releaseBody, hob, hex]
      · intro src dst hmem hnot
        simp only [releaseBody, hob, hex, if_pos] at hmem
        exact absurd hmem hnot
    · by_cases hdry : ctx.dryRun = true
      · refine ⟨?_, ?_⟩
        · intro hsome
          simp [releaseBody, hob, hex, hdry, tick] at hsome
        · intro src dst hmem hnot
          simp only [releaseBody, hob, hex, hdry, tick, Bool.false_eq_true, if_false,
            if_pos] at hmem
          exact absurd hmem hnot
      · rw [Bool.not_eq_true] at hdry
        have hpe : w.pathExists absOutput = true := by
          simp [hdry] at hex
          exact hex
        refine ⟨?_, ?_⟩
        · intro hsome
          cases hrl : w.readlink ctx.currentLink <;>
            simp [releaseBody, hob, hpe, hdry, tick, hrl] at hsome
        · intro src dst hmem hnot
          cases hrl : w.readlink ctx.currentLink <;>
            simp [releaseBody, hob, hpe, hdry, tick, hrl, FsOp.cp.injEq] at hmem <;>
          · rcases hmem with hmem | ⟨rfl, _⟩
            · exact absurd hmem hnot
            · exact hunder
/-- Witness for C8: a concrete real (non-dry) release with
`buildOutput = "build"` copies from `<repo>/build`, which the theorem
certifies to lie within the repo root. -/
theorem C8_build_output_contained_witness :
    underDir "/var/deploy/projects/p1/repo" "/var/deploy/projects/p1/repo/build" :=
  (C8_build_output_contained fixWorld {} fixCtx {}).2
    "/var/deploy/projects/p1/repo/build" "/var/deploy/projects/p1/releases/0-latest"
    (by decide) (by decide)

/-! ## Claim C9 -/

theorem acceptStartsWith (msg root resolved r : String)
    (h : (if !jsStartsWith resolved root then (Except.error msg : Except String String)
          else .ok resolved) = .ok r) :
    jsStartsWith r root = true := by
  by_cases hc : jsStartsWith resolved root = true
  · rw [hc] at h
    simp only [Bool.not_true, Bool.false_eq_true, if_false] at h
    cases h
    exact hc
  · rw [Bool.not_eq_true] at hc
    rw [hc] at h
    simp at h

/-- C9 counterexample: the validator accepts `/var/wwwevil` although it
is neither `NGINX_ROOT = /var/www` nor a descendant of it — the
`startsWith` test lacks a trailing separator, so any sibling whose name
extends the root's last component passes. -/
theorem C9_deploy_path_prefix_cex :
    resolveDeployPath "/var/www" (some "/var/wwwevil") none = .ok "/var/wwwevil" ∧
    ¬ underDir "/var/www" "/var/wwwevil" :=
  ⟨by decide, by decide⟩

/-- C9 amended: a `deployPath` accepted by the validator's
`resolveDeployPath` is only guaranteed to have `NGINX_ROOT` as a string
prefix of its resolved form (which also admits sibling directories such
as `/var/wwwevil`); the engine-side `ensureDeployPathWithinRoot` does
guarantee that its result equals the web root or resolves under it. -/
theorem C9_deploy_path_prefix_amended :
    (∀ (nginxRoot : String) (req pid : Option String) (r : String),
        resolveDeployPath nginxRoot req pid = .ok r → jsStartsWith r nginxRoot = true) ∧
    (∀ (nginxRoot cwd dp r : String),
        ensureDeployPathWithinRoot nginxRoot cwd dp = .ok r → underDir nginxRoot r) := by
  constructor
  · intro nginxRoot req pid r h
    simp only [resolveDeployPath] at h
    exact acceptStartsWith _ nginxRoot _ r h
  · intro nginxRoot cwd dp r h
    exact ensureDeployPathWithinRoot_under _ _ _ _ h

/-- Witness for the amended C9 at concrete inputs. -/
theorem C9_deploy_path_prefix_amended_witness :
    jsStartsWith "/var/www/p1" "/var/www" = true ∧ underDir "/var/www" "/var/www/p1" :=
  ⟨C9_deploy_path_prefix_amended.1 "/var/www" (some "/var/www/p1") none "/var/www/p1"
     (by decide),
   C9_deploy_path_prefix_amended.2 "/var/www" "/srv/api" "/var/www/p1" "/var/www/p1"
     (by decide)⟩

/-! ## Base64 round trip -/

theorem charToSextet_sextetToChar (n : Nat) (h : n < 64) :
    charToSextet (sextetToChar n) = some n := by
  have hall : ∀ m : Fin 64, charToSextet (sextetToChar m.val) = some m.val := by decide
  exact hall ⟨n, h⟩

theorem charToSextet_pad : ∀ c ∈ b64Padding len, charToSextet c = none := by
  unfold b64Padding
  split
  · intro c hc
    rcases List.mem_cons.mp hc with rfl | hc
    · decide
    · rcases List.mem_singleton.mp hc with rfl
      decide
  · split
    · intro c hc
      rcases List.mem_singleton.mp hc with rfl
      decide
    · intro c hc
      simp at hc

theorem filterMap_sextets (sx : List Nat) (h : ∀ n ∈ sx, n < 64)
    (pad : List Char) (hpad : ∀ c ∈ pad, charToSextet c = none) :
    (sx.map sextetToChar ++ pad).filterMap charToSextet = sx := by
  induction sx with
  | nil =>
    simp only [List.map_nil, List.nil_append]
    induction pad with
    | nil => rfl
    | cons c rest ih =>
      rw [List.filterMap_cons, hpad c (List.mem_cons_self _ _)]
      exact ih (fun d hd => hpad d (List.mem_cons_of_mem _ hd))
  | cons n rest ih =>
    rw [List.map_cons, List.cons_append, List.filterMap_cons,
      charToSextet_sextetToChar n (h n (List.mem_cons_self _ _))]
    rw [ih (fun m hm => h m (List.mem_cons_of_mem _ hm))]

theorem bytesToSextets_lt :
    ∀ bs : List Nat, (∀ b ∈ bs, b < 256) → ∀ n ∈ bytesToSextets bs, n < 64
  | [], _ => by simp [bytesToSextets]
  | [a], h => by
    have ha : a < 256 := h a (by simp)
    simp only [bytesToSextets, List.mem_cons, List.mem_singleton, List.not_mem_nil]
    intro n hn
    rcases hn with rfl | hn
    · omega
    · rcases hn with rfl | hn
      · omega
      · simp at hn
  | [a, b], h => by
    have ha : a < 256 := h a (by simp)
    have hb : b < 256 := h b (by simp)
    simp only [bytesToSextets, List.mem_cons, List.not_mem_nil]
    intro n hn
    rcases hn with rfl | rfl | rfl | hn
    · omega
    · omega
    · omega
    · simp at hn
  | a :: b :: c :: rest, h => by
    have ha : a < 256 := h a (by simp)
    have hb : b < 256 := h b (by simp)
    have hc : c < 256 := h c (by simp)
    intro n hn
    simp only [bytesToSextets, List.mem_cons] at hn
    rcases hn with rfl | rfl | rfl | rfl | hn
    · omega
    · omega
    · omega
    · omega
    · exact bytesToSextets_lt rest
        (fun x hx => h x (by simp [hx])) n hn

theorem sextetsToBytes_bytesToSextets :
    ∀ bs : List Nat, (∀ b ∈ bs, b < 256) →
      sextetsToBytes (bytesToSextets bs) = bs
  | [], _ => rfl
  | [a], h => by
    have ha : a < 256 := h a (by simp)
    show sextetsToBytes [a / 4, (a % 4) * 16] = [a]
    simp only [sextetsToBytes, List.cons.injEq, and_true]
    omega
  | [a, b], h => by
    have ha : a < 256 := h a (by simp)
    have hb : b < 256 := h b (by simp)
    show sextetsToBytes [a / 4, (a % 4) * 16 + b / 16, (b % 16) * 4] = [a, b]
    simp only [sextetsToBytes, List.cons.injEq, and_true]
    constructor
    · omega
    · omega
  | a :: b :: c :: rest, h => by
    have ha : a < 256 := h a (by simp)
    have hb : b < 256 := h b (by simp)
    have hc : c < 256 := h c (by simp)
    show sextetsToBytes ((a / 4) :: ((a % 4) * 16 + b / 16) :: ((b % 16) * 4 + c / 64)
        :: (c % 64) :: bytesToSextets rest) = a :: b :: c :: rest
    simp only [sextetsToBytes, List.cons.injEq]
    refine ⟨by omega, by omega, by omega, ?_⟩
    exact sextetsToBytes_bytesToSextets rest (fun x hx => h x (by simp [hx]))

theorem b64_roundtrip (bs : List Nat) (h : ∀ b ∈ bs, b < 256) :
    b64decodeString (b64encodeBytes bs) = bs := by
  unfold b64decodeString b64encodeBytes
  have hdata : (String.mk ((bytesToSextets bs).map sextetToChar ++ b64Padding bs.length)).data
      = (bytesToSextets bs).map sextetToChar ++ b64Padding bs.length := rfl
  rw [hdata, filterMap_sextets _ (bytesToSextets_lt bs h) _ charToSextet_pad]
  exact sextetsToBytes_bytesToSextets bs h

/-! ## UTF-8 round trip -/

theorem char_toNat_lt (c : Char) : c.toNat < 1114112 := by
  rcases c.valid with h | h
  · show c.val.toNat < 1114112
    omega
  · exact h.2

theorem utf8EncodeChar_eq1 (c : Char) (h : c.toNat < 128) :
    utf8EncodeChar c = [c.toNat] := by
  simp only [utf8EncodeChar]
  rw [if_pos h]

theorem utf8EncodeChar_eq2 (c : Char) (h1 : ¬ c.toNat < 128) (h2 : c.toNat < 2048) :
    utf8EncodeChar c = [192 + c.toNat / 64, 128 + c.toNat % 64] := by
  simp only [utf8EncodeChar]
  rw [if_neg h1, if_pos h2]

theorem utf8EncodeChar_eq3 (c : Char) (h1 : ¬ c.toNat < 128) (h2 : ¬ c.toNat < 2048)
    (h3 : c.toNat < 65536) :
    utf8EncodeChar c
      = [224 + c.toNat / 4096, 128 + (c.toNat / 64) % 64, 128 + c.toNat % 64] := by
  simp only [utf8EncodeChar]
  rw [if_neg h1, if_neg h2, if_pos h3]

theorem utf8EncodeChar_eq4 (c : Char) (h1 : ¬ c.toNat < 128) (h2 : ¬ c.toNat < 2048)
    (h3 : ¬ c.toNat < 65536) :
    utf8EncodeChar c
      = [240 + c.toNat / 262144, 128 + (c.toNat / 4096) % 64,
         128 + (c.toNat / 64) % 64, 128 + c.toNat % 64] := by
  simp only [utf8EncodeChar]
  rw [if_neg h1, if_neg h2, if_neg h3]

theorem utf8EncodeChar_lt (c : Char) : ∀ b ∈ utf8EncodeChar c, b < 256 := by
  have hv := char_toNat_lt c
  intro b hb
  by_cases h1 : c.toNat < 128
  · rw [utf8EncodeChar_eq1 c h1] at hb
    rcases List.mem_singleton.mp hb with rfl
    omega
  · by_cases h2 : c.toNat < 2048
    · rw [utf8EncodeChar_eq2 c h1 h2] at hb
      simp only [List.mem_cons, List.not_mem_nil, or_false] at hb
      rcases hb with rfl | rfl <;> omega
    · by_cases h3 : c.toNat < 65536
      · rw [utf8EncodeChar_eq3 c h1 h2 h3] at hb
        simp only [List.mem_cons, List.not_mem_nil, or_false] at hb
        rcases hb with rfl | rfl | rfl <;> omega
      · rw [utf8EncodeChar_eq4 c h1 h2 h3] at hb
        simp only [List.mem_cons, List.not_mem_nil, or_false] at hb
        rcases hb with rfl | rfl | rfl | rfl <;> omega

theorem utf8EncodeList_lt (cs : List Char) : ∀ b ∈ utf8EncodeList cs, b < 256 := by
  induction cs with
  | nil => simp [utf8EncodeList]
  | cons c rest ih =>
    intro b hb
    have hstep : utf8EncodeList (c :: rest) = utf8EncodeChar c ++ utf8EncodeList rest := rfl
    rw [hstep] at hb
    rcases List.mem_append.mp hb with hb | hb
    · exact utf8EncodeChar_lt c b hb
    · exact ih b hb

theorem utf8Step_encodeChar (c : Char) (tail : List Nat) :
    ∃ b rest, utf8EncodeChar c ++ tail = b :: rest ∧ utf8Step b rest = (c, tail) := by
  have hv := char_toNat_lt c
  have hofn : Char.ofNat c.toNat = c := Char.ofNat_toNat c
  by_cases h1 : c.toNat < 128
  · refine ⟨c.toNat, tail, by rw [utf8EncodeChar_eq1 c h1]; rfl, ?_⟩
    unfold utf8Step
    rw [if_pos h1, hofn]
  · by_cases h2 : c.toNat < 2048
    · refine ⟨192 + c.toNat / 64, (128 + c.toNat % 64) :: tail,
        by rw [utf8EncodeChar_eq2 c h1 h2]; rfl, ?_⟩
      unfold utf8Step
      rw [if_neg (by omega), if_neg (by omega), if_pos (by omega)]
      have hcont : isCont (128 + c.toNat % 64) = true := by
        simp only [isCont, Bool.and_eq_true, decide_eq_true_eq]
        omega
      show (if isCont (128 + c.toNat % 64) = true
            then (Char.ofNat ((192 + c.toNat / 64 - 192) * 64 + (128 + c.toNat % 64 - 128)),
                  tail)
            else (replChar, (128 + c.toNat % 64) :: tail)) = (c, tail)
      rw [if_pos hcont]
      have harith : (192 + c.toNat / 64 - 192) * 64 + (128 + c.toNat % 64 - 128)
          = c.toNat := by omega
      rw [harith, hofn]
    · by_cases h3 : c.toNat < 65536
      · refine ⟨224 + c.toNat / 4096,
          (128 + (c.toNat / 64) % 64) :: (128 + c.toNat % 64) :: tail,
          by rw [utf8EncodeChar_eq3 c h1 h2 h3]; rfl, ?_⟩
        unfold utf8Step
        rw [if_neg (by omega), if_neg (by omega), if_neg (by omega), if_pos (by omega)]
        have hcont : (isCont (128 + (c.toNat / 64) % 64)
            && isCont (128 + c.toNat % 64)) = true := by
          simp only [isCont, Bool.and_eq_true, decide_eq_true_eq]
          omega
        show (if (isCont (128 + (c.toNat / 64) % 64) && isCont (128 + c.toNat % 64)) = true
              then (Char.ofNat ((224 + c.toNat / 4096 - 224) * 4096
                      + (128 + (c.toNat / 64) % 64 - 128) * 64
                      + (128 + c.toNat % 64 - 128)), tail)
              else (replChar,
                (128 + (c.toNat / 64) % 64) :: (128 + c.toNat % 64) :: tail)) = (c, tail)
        rw [if_pos hcont]
        have harith : (224 + c.toNat / 4096 - 224) * 4096
            + (128 + (c.toNat / 64) % 64 - 128) * 64 + (128 + c.toNat % 64 - 128)
            = c.toNat := by omega
        rw [harith, hofn]
      · refine ⟨240 + c.toNat / 262144,
          (128 + (c.toNat / 4096) % 64) :: (128 + (c.toNat / 64) % 64)
            :: (128 + c.toNat % 64) :: tail,
          by rw [utf8EncodeChar_eq4 c h1 h2 h3]; rfl, ?_⟩
        unfold utf8Step
        rw [if_neg (by omega), if_neg (by omega), if_neg (by omega), if_neg (by omega)]
        have hcont : (isCont (128 + (c.toNat / 4096) % 64)
            && isCont (128 + (c.toNat / 64) % 64)
            && isCont (128 + c.toNat % 64)) = true := by
          simp only [isCont, Bool.and_eq_true, decide_eq_true_eq]
          omega
        show (if (isCont (128 + (c.toNat / 4096) % 64)
                && isCont (128 + (c.toNat / 64) % 64)
                && isCont (128 + c.toNat % 64)) = true
              then (Char.ofNat ((240 + c.toNat / 262144 - 240) * 262144
                      + (128 + (c.toNat / 4096) % 64 - 128) * 4096
                      + (128 + (c.toNat / 64) % 64 - 128) * 64
                      + (128 + c.toNat % 64 - 128)), tail)
              else (replChar, (128 + (c.toNat / 4096) % 64) :: (128 + (c.toNat / 64) % 64)
                :: (128 + c.toNat % 64) :: tail)) = (c, tail)
        rw [if_pos hcont]
        have harith : (240 + c.toNat / 262144 - 240) * 262144
            + (128 + (c.toNat / 4096) % 64 - 128) * 4096
            + (128 + (c.toNat / 64) % 64 - 128) * 64 + (128 + c.toNat % 64 - 128)
            = c.toNat := by omega
        rw [harith, hofn]

theorem utf8DecodeLossyAux_encode :
    ∀ (cs : List Char) (fuel : Nat), cs.length ≤ fuel →
      utf8DecodeLossyAux fuel (utf8EncodeList cs) = cs := by
  intro cs
  induction cs with
  | nil =>
    intro fuel _
    cases fuel <;> rfl
  | cons c rest ih =>
    intro fuel hf
    cases fuel with
    | zero => simp at hf
    | succ f =>
      obtain ⟨b, rbytes, hb, hstep⟩ := utf8Step_encodeChar c (utf8EncodeList rest)
      have henc : utf8EncodeList (c :: rest) = utf8EncodeChar c ++ utf8EncodeList rest := rfl
      rw [henc, hb]
      show (utf8Step b rbytes).1 :: utf8DecodeLossyAux f (utf8Step b rbytes).2 = c :: rest
      rw [hstep]
      show c :: utf8DecodeLossyAux f (utf8EncodeList rest) = c :: rest
      rw [ih f (by simpa using Nat.lt_succ_iff.mp (Nat.lt_of_lt_of_le (Nat.lt_succ_self _) hf))]

theorem utf8EncodeChar_length_pos (c : Char) : 1 ≤ (utf8EncodeChar c).length := by
  by_cases h1 : c.toNat < 128
  · rw [utf8EncodeChar_eq1 c h1]; simp
  · by_cases h2 : c.toNat < 2048
    · rw [utf8EncodeChar_eq2 c h1 h2]; simp
    · by_cases h3 : c.toNat < 65536
      · rw [utf8EncodeChar_eq3 c h1 h2 h3]; simp
      · rw [utf8EncodeChar_eq4 c h1 h2 h3]; simp

theorem utf8EncodeList_length (cs : List Char) :
    cs.length ≤ (utf8EncodeList cs).length := by
  induction cs with
  | nil => simp [utf8EncodeList]
  | cons c rest ih =>
    have hstep : utf8EncodeList (c :: rest) = utf8EncodeChar c ++ utf8EncodeList rest := rfl
    rw [hstep, List.length_append, List.length_cons]
    have := utf8EncodeChar_length_pos c
    omega

theorem utf8DecodeLossy_encodeList (cs : List Char) :
    utf8DecodeLossy (utf8EncodeList cs) = cs :=
  utf8DecodeLossyAux_encode cs _ (utf8EncodeList_length cs)

/-! ## XOR keystream -/

theorem xorKs_invol (prim : GcmPrim) (key iv : List Nat) :
    ∀ (l : List Nat) (i : Nat), xorKs prim key iv i (xorKs prim key iv i l) = l := by
  intro l
  induction l with
  | nil => intro i; rfl
  | cons b rest ih =>
    intro i
    show (b ^^^ prim.ks key iv i % 256 ^^^ prim.ks key iv i % 256)
        :: xorKs prim key iv (i + 1) (xorKs prim key iv (i + 1) rest) = b :: rest
    rw [Nat.xor_cancel_right, ih]

theorem xorKs_lt (prim : GcmPrim) (key iv : List Nat) :
    ∀ (l : List Nat) (i : Nat), (∀ b ∈ l, b < 256) →
      ∀ b ∈ xorKs prim key iv i l, b < 256 := by
  intro l
  induction l with
  | nil => intro i _ b hb; simp [xorKs] at hb
  | cons x rest ih =>
    intro i h b hb
    have hb2 : b ∈ (x ^^^ prim.ks key iv i % 256) :: xorKs prim key iv (i + 1) rest := hb
    rcases List.mem_cons.mp hb2 with rfl | hb3
    · have hx : x < 256 := h x (List.mem_cons_self _ _)
      have hk : prim.ks key iv i % 256 < 256 := Nat.mod_lt _ (by norm_num)
      have hxor := Nat.xor_lt_two_pow (n := 8) (by simpa using hx) (by simpa using hk)
      simpa using hxor
    · exact ih (i + 1) (fun y hy => h y (List.mem_cons_of_mem _ hy)) b hb3

/-! ## Claim C2 -/

/-- C2: for every UTF-8 string `s`, when the master secret is
configured, `decryptSecret (encryptSecret s) = s`, with the random IV
modelled as an input to `encryptSecret`.  Universally quantified over
the GCM primitives, so it holds for AES-256-GCM in particular. -/
theorem C2_decrypt_encrypt_roundtrip (prim : GcmPrim) (masterKey : String)
    (iv : List Nat) (s : String) (blob : String)
    (hmk : masterKey ≠ "") (hiv : iv.length = 12) (hivb : ∀ b ∈ iv, b < 256)
    (henc : encryptSecret prim masterKey iv s = .ok blob) :
    decryptSecret prim masterKey blob = .ok s := by
  simp only [encryptSecret] at henc
  rw [if_neg hmk] at henc
  cases henc
  have hctb : ∀ b ∈ xorKs prim (prim.hash (utf8Encode masterKey)) iv 0 (utf8Encode s),
      b < 256 :=
    xorKs_lt prim _ iv (utf8Encode s) 0 (utf8EncodeList_lt s.data)
  have htagb := prim.mac_lt (prim.hash (utf8Encode masterKey)) iv
    (xorKs prim (prim.hash (utf8Encode masterKey)) iv 0 (utf8Encode s))
  have hraw : b64decodeString (b64encodeBytes (iv
      ++ prim.mac (prim.hash (utf8Encode masterKey)) iv
           (xorKs prim (prim.hash (utf8Encode masterKey)) iv 0 (utf8Encode s))
      ++ xorKs prim (prim.hash (utf8Encode masterKey)) iv 0 (utf8Encode s)))
      = iv ++ prim.mac (prim.hash (utf8Encode masterKey)) iv
           (xorKs prim (prim.hash (utf8Encode masterKey)) iv 0 (utf8Encode s))
      ++ xorKs prim (prim.hash (utf8Encode masterKey)) iv 0 (utf8Encode s) := by
    refine b64_roundtrip _ ?_
    intro b hb
    rcases List.mem_append.mp hb with hb | hb
    · rcases List.mem_append.mp hb with hb | hb
      · exact hivb b hb
      · exact htagb b hb
    · exact hctb b hb
  have hmaclen := prim.mac_len (prim.hash (utf8Encode masterKey)) iv
    (xorKs prim (prim.hash (utf8Encode masterKey)) iv 0 (utf8Encode s))
  have htake : (iv ++ prim.mac (prim.hash (utf8Encode masterKey)) iv
        (xorKs prim (prim.hash (utf8Encode masterKey)) iv 0 (utf8Encode s))
      ++ xorKs prim (prim.hash (utf8Encode masterKey)) iv 0 (utf8Encode s)).take 12
      = iv := by
    rw [List.append_assoc]
    exact List.take_left' hiv
  have hdrop : (iv ++ prim.mac (prim.hash (utf8Encode masterKey)) iv
        (xorKs prim (prim.hash (utf8Encode masterKey)) iv 0 (utf8Encode s))
      ++ xorKs prim (prim.hash (utf8Encode masterKey)) iv 0 (utf8Encode s)).drop 12
      = prim.mac (prim.hash (utf8Encode masterKey)) iv
          (xorKs prim (prim.hash (utf8Encode masterKey)) iv 0 (utf8Encode s))
        ++ xorKs prim (prim.hash (utf8Encode masterKey)) iv 0 (utf8Encode s) := by
    rw [List.append_assoc]
    exact List.drop_left' hiv
  have htake2 : (prim.mac (prim.hash (utf8Encode masterKey)) iv
        (xorKs prim (prim.hash (utf8Encode masterKey)) iv 0 (utf8Encode s))
      ++ xorKs prim (prim.hash (utf8Encode masterKey)) iv 0 (utf8Encode s)).take 16
      = prim.mac (prim.hash (utf8Encode masterKey)) iv
          (xorKs prim (prim.hash (utf8Encode masterKey)) iv 0 (utf8Encode s)) :=
    List.take_left' hmaclen
  have hdrop28 : (iv ++ prim.mac (prim.hash (utf8Encode masterKey)) iv
        (xorKs prim (prim.hash (utf8Encode masterKey)) iv 0 (utf8Encode s))
      ++ xorKs prim (prim.hash (utf8Encode masterKey)) iv 0 (utf8Encode s)).drop 28
      = xorKs prim (prim.hash (utf8Encode masterKey)) iv 0 (utf8Encode s) := by
    refine List.drop_left' ?_
    rw [List.length_append, hiv, hmaclen]
  simp only [decryptSecret]
  rw [if_neg hmk, hraw, htake, hdrop, htake2, hdrop28, if_pos rfl, xorKs_invol]
  have hdec : utf8DecodeLossy (utf8Encode s) = s.data := utf8DecodeLossy_encodeList s.data
  rw [hdec]

/-- Witness for C2 at a concrete primitive, key, IV and plaintext. -/
theorem C2_decrypt_encrypt_roundtrip_witness :
    decryptSecret fixPrim "k"
      (b64encodeBytes (List.replicate 12 0 ++ List.replicate 16 0
        ++ xorKs fixPrim (fixPrim.hash (utf8Encode "k")) (List.replicate 12 0) 0
             (utf8Encode "hi"))) = .ok "hi" :=
  C2_decrypt_encrypt_roundtrip fixPrim "k" (List.replicate 12 0) "hi" _
    (by decide) (by decide) (by decide) (by decide)

/-! ## Claim C3 -/

/-- C3: for every valid encrypted blob `x` — base64 of
`iv(12) || tag(16) || ct` whose tag verifies under the configured
master key, and whose plaintext is valid UTF-8 (which holds for every
blob `encryptSecret` produces) — decrypting and re-encrypting with the
blob's own IV reproduces `x` exactly. -/
theorem C3_encrypt_decrypt_roundtrip (prim : GcmPrim) (masterKey : String)
    (iv tag ct : List Nat) (x : String)
    (hmk : masterKey ≠ "")
    (hiv : iv.length = 12) (hivb : ∀ b ∈ iv, b < 256) (hctb : ∀ b ∈ ct, b < 256)
    (htag : tag = prim.mac (prim.hash (utf8Encode masterKey)) iv ct)
    (hx : x = b64encodeBytes (iv ++ tag ++ ct))
    (hpt : utf8Encode (String.mk (utf8DecodeLossy
        (xorKs prim (prim.hash (utf8Encode masterKey)) iv 0 ct)))
        = xorKs prim (prim.hash (utf8Encode masterKey)) iv 0 ct) :
    decryptSecret prim masterKey x
        = .ok (String.mk (utf8DecodeLossy
            (xorKs prim (prim.hash (utf8Encode masterKey)) iv 0 ct))) ∧
    encryptSecret prim masterKey iv
        (String.mk (utf8DecodeLossy
            (xorKs prim (prim.hash (utf8Encode masterKey)) iv 0 ct))) = .ok x := by
  set key := prim.hash (utf8Encode masterKey) with hkey
  have htagb : ∀ b ∈ tag, b < 256 := htag ▸ prim.mac_lt key iv ct
  have hraw : b64decodeString x = iv ++ tag ++ ct := by
    rw [hx]
    refine b64_roundtrip _ ?_
    intro b hb
    rcases List.mem_append.mp hb with hb | hb
    · rcases List.mem_append.mp hb with hb | hb
      · exact hivb b hb
      · exact htagb b hb
    · exact hctb b hb
  constructor
  · simp only [decryptSecret]
    rw [if_neg hmk, hraw]
    have htake : (iv ++ tag ++ ct).take 12 = iv := by
      rw [List.append_assoc]
      exact List.take_left' hiv
    have hdrop : (iv ++ tag ++ ct).drop 12 = tag ++ ct := by
      rw [List.append_assoc]
      exact List.drop_left' hiv
    have htake2 : (tag ++ ct).take 16 = tag := by
      refine List.take_left' ?_
      rw [htag]
      exact prim.mac_len key iv ct
    have hdrop28 : (iv ++ tag ++ ct).drop 28 = ct := by
      refine List.drop_left' ?_
      rw [List.length_append, hiv, htag, prim.mac_len key iv ct]
    rw [htake, hdrop, htake2, hdrop28, if_pos htag.symm]
  · simp only [encryptSecret]
    rw [if_neg hmk, hpt, xorKs_invol, ← htag, ← hx]

/-- Witness for C3: the empty plaintext under the trivial primitive. -/
theorem C3_encrypt_decrypt_roundtrip_witness :
    decryptSecret fixPrim "k"
        (b64encodeBytes (List.replicate 12 0 ++ List.replicate 16 0 ++ [])) = .ok "" ∧
    encryptSecret fixPrim "k" (List.replicate 12 0) ""
        = .ok (b64encodeBytes (List.replicate 12 0 ++ List.replicate 16 0 ++ [])) :=
  C3_encrypt_decrypt_roundtrip fixPrim "k" (List.replicate 12 0) (List.replicate 16 0)
    [] _ (by decide) (by decide) (by decide) (by decide) (by decide) rfl (by decide)

/-! ## Claim C4 -/

theorem ciEq_refl (c : Char) : ciEq c c = true := by
  simp [ciEq]

theorem ciPrefix_append_self : ∀ (l t : List Char), ciPrefix l (l ++ t) = true := by
  intro l
  induction l with
  | nil => intro t; rfl
  | cons c rest ih =>
    intro t
    show (ciEq c c && ciPrefix rest (rest ++ t)) = true
    rw [ciEq_refl, ih, Bool.and_self]

theorem takeWhile_of_all {p : Char → Bool} :
    ∀ l : List Char, (∀ c ∈ l, p c = true) → l.takeWhile p = l := by
  intro l
  induction l with
  | nil => intro _; rfl
  | cons c rest ih =>
    intro h
    rw [List.takeWhile_cons, h c (List.mem_cons_self _ _)]
    simp only [if_pos]
    rw [ih (fun d hd => h d (List.mem_cons_of_mem _ hd))]

theorem dropWhile_of_all {p : Char → Bool} :
    ∀ l : List Char, (∀ c ∈ l, p c = true) → l.dropWhile p = [] := by
  intro l
  induction l with
  | nil => intro _; rfl
  | cons c rest ih =>
    intro h
    rw [List.dropWhile_cons, h c (List.mem_cons_self _ _)]
    simp only [if_pos]
    exact ih (fun d hd => h d (List.mem_cons_of_mem _ hd))

theorem redactOneAux_nil (keyC : List Char) (fuel : Nat) :
    redactOneAux keyC fuel [] = [] := by
  cases fuel <;> rfl

theorem redactOneAux_match (keyC valC : List Char) (fuel : Nat)
    (hk : keyC ≠ []) (hv : valC ≠ []) (hvns : ∀ c ∈ valC, isWsCh c = false) :
    redactOneAux keyC (fuel + 1) (keyC ++ '=' :: valC)
      = keyC ++ '=' :: redactedTok := by
  cases keyC with
  | nil => exact absurd rfl hk
  | cons k0 krest =>
    have hshape : (k0 :: krest) ++ '=' :: valC = k0 :: (krest ++ '=' :: valC) := rfl
    rw [hshape]
    have hci : ciPrefix ((k0 :: krest) ++ ['=']) (k0 :: (krest ++ '=' :: valC)) = true := by
      have h2 : k0 :: (krest ++ '=' :: valC) = ((k0 :: krest) ++ ['=']) ++ valC := by
        simp
      rw [h2]
      exact ciPrefix_append_self _ _
    rw [redactOneAux, if_pos hci]
    have hdrop : (k0 :: (krest ++ '=' :: valC)).drop ((k0 :: krest).length + 1)
        = valC := by
      have h2 : k0 :: (krest ++ '=' :: valC) = ((k0 :: krest) ++ ['=']) ++ valC := by
        simp
      rw [h2]
      refine List.drop_left' ?_
      simp
    rw [hdrop]
    have htk : valC.takeWhile (fun ch => !isWsCh ch) = valC := by
      refine takeWhile_of_all valC ?_
      intro c hc
      rw [hvns c hc]
      rfl
    have hdw : valC.dropWhile (fun ch => !isWsCh ch) = [] := by
      refine dropWhile_of_all valC ?_
      intro c hc
      rw [hvns c hc]
      rfl
    have hne : valC.isEmpty = false := by
      cases valC with
      | nil => exact absurd rfl hv
      | cons a l => rfl
    simp only [htk, hdw, hne, Bool.false_eq_true, if_false, redactOneAux_nil,
      List.append_nil]

/-- C4 counterexample: the redactor substitutes only `KEY=<token>`
occurrences, so a secret value appearing bare in a subprocess chunk is
written to the deployment log verbatim. -/
theorem C4_bare_secret_leaks_cex :
    redactText "TOKEN=hunter2 the token is hunter2" ["TOKEN"]
      = "TOKEN=[redacted] the token is hunter2" ∧
    List.IsInfix "hunter2".data
      (redactText "TOKEN=hunter2 the token is hunter2" ["TOKEN"]).data := by
  constructor
  · decide
  · decide

/-- C4 amended: for every redaction key and every non-whitespace secret
value, a chunk carrying the secret in `KEY=value` form is written as
`KEY=[redacted]` — the value is removed whenever it does not also occur
inside `KEY=[redacted]` itself.  Secret values appearing without the
`KEY=` prefix pass through unredacted (best-effort redaction, spec §9). -/
theorem C4_redactor_key_pattern (key value : String)
    (hk : key.data ≠ []) (hv : value.data ≠ [])
    (hvns : ∀ c ∈ value.data, isWsCh c = false) :
    redactText (key ++ "=" ++ value) [key] = key ++ "=[redacted]" ∧
    (¬ List.IsInfix value.data (key ++ "=[redacted]").data →
      ¬ List.IsInfix value.data (redactText (key ++ "=" ++ value) [key]).data) := by
  have hkne : key ≠ "" := by
    intro hq
    rw [hq] at hk
    exact hk rfl
  have hmain : redactText (key ++ "=" ++ value) [key] = key ++ "=[redacted]" := by
    show List.foldl _ (key ++ "=" ++ value) [key] = _
    rw [List.foldl_cons, List.foldl_nil]
    rw [if_neg hkne]
    unfold redactOne
    have hdata : (key ++ "=" ++ value).data = key.data ++ '=' :: value.data := by
      rw [String.data_append, String.data_append]
      simp
    rw [hdata]
    have hlen : (key.data ++ '=' :: value.data).length
        = key.data.length + value.data.length + 1 := by
      simp
      omega
    rw [hlen, redactOneAux_match key.data value.data _ hk hv hvns]
    have hrhs : (key ++ "=[redacted]").data = key.data ++ '=' :: redactedTok := by
      rw [String.data_append]
      rfl
    exact congrArg String.mk (by rw [← hrhs]) |>.trans (by
      show String.mk (key ++ "=[redacted]").data = key ++ "=[redacted]"
      rfl)
  refine ⟨hmain, ?_⟩
  intro hnot hinf
  rw [hmain] at hinf
  exact hnot hinf

/-- Witness for the amended C4 at a concrete key and value. -/
theorem C4_redactor_key_pattern_witness :
    redactText ("TOKEN" ++ "=" ++ "s3cret") ["TOKEN"] = "TOKEN" ++ "=[redacted]" ∧
    (¬ List.IsInfix "s3cret".data ("TOKEN" ++ "=[redacted]").data →
      ¬ List.IsInfix "s3cret".data
        (redactText ("TOKEN" ++ "=" ++ "s3cret") ["TOKEN"]).data) :=
  C4_redactor_key_pattern "TOKEN" "s3cret" (by decide) (by decide) (by decide)


/-! ## Deployment-store lemmas -/

theorem getDep_ds_eq {s s' : RunSt} (h : s'.ds = s.ds) (id : Nat) :
    getDep s' id = getDep s id := by
  unfold getDep
  rw [h]

theorem find?_map_upd (l : List DeploymentRecord) (id : Nat)
    (f : DeploymentRecord → DeploymentRecord)
    (hf : ∀ d, (f d).deploymentId = d.deploymentId) :
    (l.map (fun d => if d.deploymentId = id then f d else d)).find?
        (fun d => d.deploymentId == id)
      = (l.find? (fun d => d.deploymentId == id)).map f := by
  induction l with
  | nil => rfl
  | cons d rest ih =>
    by_cases hd : d.deploymentId = id
    · rw [List.map_cons, if_pos hd,
        List.find?_cons_of_pos _ (by simp [hf, hd]),
        List.find?_cons_of_pos _ (by simp [hd])]
      rfl
    · rw [List.map_cons, if_neg hd,
        List.find?_cons_of_neg _ (by simp [hd]),
        List.find?_cons_of_neg _ (by simp [hd]), ih]

theorem getDep_updDep (s : RunSt) (id : Nat) (f : DeploymentRecord → DeploymentRecord)
    (hf : ∀ d, (f d).deploymentId = d.deploymentId) :
    getDep (updDep s id f) id = (getDep s id).map f :=
  find?_map_upd s.ds id f hf

theorem find?_map_steps (l : List DeploymentRecord) (id1 id2 : Nat)
    (f : DeploymentRecord → DeploymentRecord)
    (hfid : ∀ d, (f d).deploymentId = d.deploymentId)
    (hfs : ∀ d, (f d).steps = d.steps) :
    ((l.map (fun d => if d.deploymentId = id2 then f d else d)).find?
        (fun d => d.deploymentId == id1)).map DeploymentRecord.steps
      = (l.find? (fun d => d.deploymentId == id1)).map DeploymentRecord.steps := by
  induction l with
  | nil => rfl
  | cons d rest ih =>
    by_cases hd2 : d.deploymentId = id2
    · by_cases hd1 : d.deploymentId = id1
      · rw [List.map_cons, if_pos hd2,
          List.find?_cons_of_pos _ (by simp [hfid, hd1]),
          List.find?_cons_of_pos _ (by simp [hd1])]
        simp [hfs]
      · rw [List.map_cons, if_pos hd2,
          List.find?_cons_of_neg _ (by simp [hfid, hd1]),
          List.find?_cons_of_neg _ (by simp [hd1]), ih]
    · by_cases hd1 : d.deploymentId = id1
      · rw [List.map_cons, if_neg hd2,
          List.find?_cons_of_pos _ (by simp [hd1]),
          List.find?_cons_of_pos _ (by simp [hd1])]
      · rw [List.map_cons, if_neg hd2,
          List.find?_cons_of_neg _ (by simp [hd1]),
          List.find?_cons_of_neg _ (by simp [hd1]), ih]

theorem updDep_map_steps (s : RunSt) (id1 id2 : Nat)
    (f : DeploymentRecord → DeploymentRecord)
    (hfid : ∀ d, (f d).deploymentId = d.deploymentId)
    (hfs : ∀ d, (f d).steps = d.steps) :
    (getDep (updDep s id2 f) id1).map DeploymentRecord.steps
      = (getDep s id1).map DeploymentRecord.steps :=
  find?_map_steps s.ds id1 id2 f hfid hfs

theorem lookup_map_upd (steps : List (String × StepRecord)) (name : String)
    (f : StepRecord → StepRecord) :
    (steps.map (fun p => if p.1 = name then (p.1, f p.2) else p)).lookup name
      = (steps.lookup name).map f := by
  induction steps with
  | nil => rfl
  | cons p rest ih =>
    rcases p with ⟨k, v⟩
    rw [List.map_cons]
    by_cases hp : k = name
    · subst hp
      have hhead : (if ((k, v) : String × StepRecord).1 = k
          then (((k, v) : String × StepRecord).1, f ((k, v) : String × StepRecord).2)
          else (k, v)) = (k, f v) := by simp
      rw [hhead]
      simp [List.lookup, ih]
    · have hhead : (if ((k, v) : String × StepRecord).1 = name
          then (((k, v) : String × StepRecord).1, f ((k, v) : String × StepRecord).2)
          else (k, v)) = (k, v) := by simp [hp]
      rw [hhead]
      have hb : (name == k) = false := by
        simp only [beq_eq_false_iff_ne, ne_eq]
        exact fun hq => hp hq.symm
      simp [List.lookup, hb, ih]

theorem lookup_map_ne (steps : List (String × StepRecord)) (name j : String)
    (f : StepRecord → StepRecord) (hj : j ≠ name) :
    (steps.map (fun p => if p.1 = name then (p.1, f p.2) else p)).lookup j
      = steps.lookup j := by
  induction steps with
  | nil => rfl
  | cons p rest ih =>
    rcases p with ⟨k, v⟩
    rw [List.map_cons]
    by_cases hp : k = name
    · subst hp
      have hhead : (if ((k, v) : String × StepRecord).1 = k
          then (((k, v) : String × StepRecord).1, f ((k, v) : String × StepRecord).2)
          else (k, v)) = (k, f v) := by simp
      rw [hhead]
      have hb : (j == k) = false := by
        simp only [beq_eq_false_iff_ne, ne_eq]
        exact hj
      simp [List.lookup, hb, ih]
    · have hhead : (if ((k, v) : String × StepRecord).1 = name
          then (((k, v) : String × StepRecord).1, f ((k, v) : String × StepRecord).2)
          else (k, v)) = (k, v) := by simp [hp]
      rw [hhead]
      by_cases hjk : j = k
      · subst hjk
        simp [List.lookup]
      · have hb : (j == k) = false := by
          simp only [beq_eq_false_iff_ne, ne_eq]
          exact hjk
        simp [List.lookup, hb, ih]

theorem lookup_append_of_none (l1 l2 : List (String × StepRecord)) (j : String)
    (h : l1.lookup j = none) : (l1 ++ l2).lookup j = l2.lookup j := by
  induction l1 with
  | nil => rfl
  | cons p rest ih =>
    rcases p with ⟨k, v⟩
    by_cases hjk : j = k
    · subst hjk
      simp [List.lookup] at h
    · have hb : (j == k) = false := by
        simp only [beq_eq_false_iff_ne, ne_eq]
        exact hjk
      simp only [List.lookup, hb] at h
      rw [List.cons_append]
      simp only [List.lookup, hb]
      exact ih h

theorem lookup_append_of_some (l1 l2 : List (String × StepRecord)) (j : String)
    (r : StepRecord) (h : l1.lookup j = some r) : (l1 ++ l2).lookup j = some r := by
  induction l1 with
  | nil => simp [List.lookup] at h
  | cons p rest ih =>
    rcases p with ⟨k, v⟩
    rw [List.cons_append]
    by_cases hjk : j = k
    · subst hjk
      simp only [List.lookup, beq_self_eq_true] at h ⊢
      exact h
    · have hb : (j == k) = false := by
        simp only [beq_eq_false_iff_ne, ne_eq]
        exact hjk
      simp only [List.lookup, hb] at h ⊢
      exact ih h

theorem lookup_upsert_same (steps : List (String × StepRecord)) (name : String)
    (f : StepRecord → StepRecord) :
    (upsertStep steps name f).lookup name
      = some (f ((steps.lookup name).getD emptyStep)) := by
  unfold upsertStep
  cases hl : steps.lookup name with
  | some r =>
    rw [lookup_map_upd, hl]
    rfl
  | none =>
    rw [lookup_append_of_none _ _ _ hl]
    simp [List.lookup]

theorem lookup_upsert_other (steps : List (String × StepRecord)) (name j : String)
    (f : StepRecord → StepRecord) (hj : j ≠ name) :
    (upsertStep steps name f).lookup j = steps.lookup j := by
  unfold upsertStep
  cases hl : steps.lookup name with
  | some r => rw [lookup_map_ne _ _ _ _ hj]
  | none =>
    cases hlj : steps.lookup j with
    | some r => exact lookup_append_of_some _ _ _ _ hlj
    | none =>
      rw [lookup_append_of_none _ _ _ hlj]
      have hb : (j == name) = false := by
        simp only [beq_eq_false_iff_ne, ne_eq]
        exact hj
      simp [List.lookup, hb]

theorem stepOf_recordStep_same (s : RunSt) (id : Nat) (name : String)
    (f : StepRecord → StepRecord) :
    stepOf (recordStep s id name f) id name
      = (getDep s id).map (fun d => f ((d.steps.lookup name).getD emptyStep)) := by
  have h := getDep_updDep s id
    (fun d => { d with steps := upsertStep d.steps name f }) (fun d => rfl)
  unfold stepOf recordStep
  rw [h]
  cases getDep s id with
  | none => rfl
  | some d =>
    simp only [Option.map_some']
    show (upsertStep d.steps name f).lookup name
        = some (f ((d.steps.lookup name).getD emptyStep))
    rw [lookup_upsert_same]

theorem stepOf_recordStep_other (s : RunSt) (id : Nat) (name j : String)
    (f : StepRecord → StepRecord) (hj : j ≠ name) :
    stepOf (recordStep s id name f) id j = stepOf s id j := by
  have h := getDep_updDep s id
    (fun d => { d with steps := upsertStep d.steps name f }) (fun d => rfl)
  unfold stepOf recordStep
  rw [h]
  cases getDep s id with
  | none => rfl
  | some d =>
    simp only [Option.map_some']
    show (upsertStep d.steps name f).lookup j = d.steps.lookup j
    rw [lookup_upsert_other _ _ _ _ hj]

theorem recordStep_hasDep (s : RunSt) (id : Nat) (name : String)
    (f : StepRecord → StepRecord) :
    (getDep (recordStep s id name f) id).isSome = (getDep s id).isSome := by
  have h := getDep_updDep s id
    (fun d => { d with steps := upsertStep d.steps name f }) (fun d => rfl)
  unfold recordStep
  rw [h]
  cases getDep s id <;> rfl

theorem stepOf_of_preserves {id : Nat} {m : StepM} (hm : PreservesSteps id m)
    (s : RunSt) (j : String) : stepOf ((m s).1) id j = stepOf s id j := by
  unfold stepOf
  have hmap := hm s
  cases h1 : getDep s id with
  | none =>
    rw [h1] at hmap
    simp only [Option.map_none'] at hmap
    rw [Option.map_eq_none'] at hmap
    rw [hmap]
  | some d =>
    rw [h1] at hmap
    simp only [Option.map_some'] at hmap
    cases h2 : getDep ((m s).1) id with
    | none => rw [h2] at hmap; simp at hmap
    | some d2 =>
      rw [h2] at hmap
      simp only [Option.map_some', Option.some.injEq] at hmap
      show d2.steps.lookup j = d.steps.lookup j
      rw [hmap]

theorem hasDep_of_preserves {id : Nat} {m : StepM} (hm : PreservesSteps id m)
    (s : RunSt) : (getDep ((m s).1) id).isSome = (getDep s id).isSome := by
  have hmap := hm s
  have h1 : ((getDep ((m s).1) id).map DeploymentRecord.steps).isSome
      = ((getDep s id).map DeploymentRecord.steps).isSome := by rw [hmap]
  simpa [Option.isSome_map] using h1


/-! ## Step bodies do not touch step maps -/

theorem runCommandM_ds (w : World) (hl : Bool) (c : String) (a : List String)
    (rk : List String) (dr : Bool) (s : RunSt) :
    (runCommandM w hl c a rk dr s).st.ds = s.ds := by
  simp only [runCommandM, logW]
  repeat' split
  all_goals rfl

theorem runShellCommandM_ds (w : World) (hl : Bool) (c : String)
    (rk : List String) (dr : Bool) (s : RunSt) :
    (runShellCommandM w hl c rk dr s).st.ds = s.ds :=
  runCommandM_ds w hl "bash" ["-lc", c] rk dr s

theorem writeConfigM_ds (w : World) (cfg : EngineCfg) (pid rt dp : String)
    (rp : Option Nat) (hl dr : Bool) (s : RunSt) :
    (writeConfigM w cfg pid rt dp rp hl dr s).1.ds = s.ds := by
  simp only [writeConfigM, logW]
  repeat' split
  all_goals simp [runCommandM_ds, logW]

theorem installBody_ds (w : World) (ctx : DeployCtx) (s : RunSt) :
    ((installBody w ctx s).1).ds = s.ds := by
  simp only [installBody, runShellCommandM, logW]
  repeat' split
  all_goals simp [runCommandM_ds, logW]

theorem testBody_ds (w : World) (ctx : DeployCtx) (s : RunSt) :
    ((testBody w ctx s).1).ds = s.ds := by
  simp only [testBody, runShellCommandM, logW]
  repeat' split
  all_goals simp [runCommandM_ds, logW]

theorem buildBody_ds (w : World) (ctx : DeployCtx) (s : RunSt) :
    ((buildBody w ctx s).1).ds = s.ds := by
  simp only [buildBody, runShellCommandM, logW]
  repeat' split
  all_goals simp [runCommandM_ds, logW]

theorem releaseBody_ds (w : World) (cfg : EngineCfg) (ctx : DeployCtx) (s : RunSt) :
    ((releaseBody w cfg ctx s).1).ds = s.ds := by
  simp only [releaseBody, tick]
  repeat' split
  all_goals rfl

theorem nginxBody_ds (w : World) (cfg : EngineCfg) (ctx : DeployCtx) (s : RunSt) :
    ((nginxBody w cfg ctx s).1).ds = s.ds := by
  simp only [nginxBody]
  exact writeConfigM_ds w cfg ctx.projectId ctx.runtimeType ctx.safeDeployPath
    ctx.runtimePort true ctx.dryRun s

theorem runtimeBody_ds (w : World) (cfg : EngineCfg) (ctx : DeployCtx) (s : RunSt) :
    ((runtimeBody w cfg ctx s).1).ds = s.ds := by
  simp only [runtimeBody, logW]
  repeat' split
  all_goals simp [runCommandM_ds, logW]

theorem preserves_of_ds_eq {id : Nat} {m : StepM}
    (h : ∀ s, ((m s).1).ds = s.ds) : PreservesSteps id m := by
  intro s
  rw [getDep_ds_eq (h s)]

theorem getDep_steps_commitUpd (s : RunSt) (j i : Nat) (c : String) :
    (getDep (updDep s j (fun d => { d with commit := some c })) i).map
        DeploymentRecord.steps
      = (getDep s i).map DeploymentRecord.steps :=
  updDep_map_steps s i j _ (fun d => rfl) (fun d => rfl)

theorem syncBody_preserves (w : World) (ctx : DeployCtx) (id : Nat) :
    PreservesSteps id (syncBody w ctx) := by
  intro s
  simp only [syncBody]
  repeat' split
  all_goals
    first
    | rfl
    | (rw [getDep_steps_commitUpd];
       apply congrArg; apply getDep_ds_eq; simp [runCommandM_ds, logW]; done)
    | (apply congrArg; apply getDep_ds_eq; simp [runCommandM_ds, logW]; done)

theorem pipeline_preserves (w : World) (cfg : EngineCfg) (ctx : DeployCtx) (id : Nat) :
    ∀ nb ∈ pipeline w cfg ctx, PreservesSteps id nb.2 := by
  intro nb hnb
  simp only [pipeline, List.mem_cons, List.not_mem_nil, or_false] at hnb
  rcases hnb with rfl | rfl | rfl | rfl | rfl | rfl | rfl
  · exact syncBody_preserves w ctx id
  · exact preserves_of_ds_eq (installBody_ds w ctx)
  · exact preserves_of_ds_eq (testBody_ds w ctx)
  · exact preserves_of_ds_eq (buildBody_ds w ctx)
  · exact preserves_of_ds_eq (releaseBody_ds w cfg ctx)
  · exact preserves_of_ds_eq (nginxBody_ds w cfg ctx)
  · exact preserves_of_ds_eq (runtimeBody_ds w cfg ctx)


/-! ## runStep wrapper and step-sequence lemmas -/

theorem stepOf_ds_eq {s s' : RunSt} (h : s'.ds = s.ds) (id : Nat) (j : String) :
    stepOf s' id j = stepOf s id j := by
  unfold stepOf
  rw [getDep_ds_eq h]

theorem stepOf_clockBump (s : RunSt) (id : Nat) (j : String) :
    stepOf { s with clock := s.clock + 1 } id j = stepOf s id j :=
  stepOf_ds_eq rfl id j

theorem getDep_clockBump (s : RunSt) (id : Nat) :
    getDep { s with clock := s.clock + 1 } id = getDep s id :=
  getDep_ds_eq rfl id

theorem stepOf_of_map_steps {s s' : RunSt} {id : Nat}
    (hmap : (getDep s' id).map DeploymentRecord.steps
      = (getDep s id).map DeploymentRecord.steps) (j : String) :
    stepOf s' id j = stepOf s id j := by
  unfold stepOf
  cases h1 : getDep s id with
  | none =>
    rw [h1] at hmap
    simp only [Option.map_none'] at hmap
    rw [Option.map_eq_none'] at hmap
    rw [hmap]
  | some d =>
    rw [h1] at hmap
    simp only [Option.map_some'] at hmap
    cases h2 : getDep s' id with
    | none => rw [h2] at hmap; simp at hmap
    | some d2 =>
      rw [h2] at hmap
      simp only [Option.map_some', Option.some.injEq] at hmap
      show d2.steps.lookup j = d.steps.lookup j
      rw [hmap]

theorem stepOf_updDep_steps (s : RunSt) (id1 id2 : Nat)
    (f : DeploymentRecord → DeploymentRecord)
    (hfid : ∀ d, (f d).deploymentId = d.deploymentId)
    (hfs : ∀ d, (f d).steps = d.steps) (j : String) :
    stepOf (updDep s id2 f) id1 j = stepOf s id1 j :=
  stepOf_of_map_steps (updDep_map_steps s id1 id2 f hfid hfs) j

theorem updDep_hasDep (s : RunSt) (id : Nat)
    (f : DeploymentRecord → DeploymentRecord)
    (hfid : ∀ d, (f d).deploymentId = d.deploymentId) :
    (getDep (updDep s id f) id).isSome = (getDep s id).isSome := by
  rw [getDep_updDep s id f hfid]
  cases getDep s id <;> rfl

theorem runStepW_stepOf_other (id : Nat) (name : String) (body : StepM)
    (hbody : PreservesSteps id body) (s : RunSt) (j : String) (hj : j ≠ name) :
    stepOf ((runStepW id name body s).1) id j = stepOf s id j := by
  simp only [runStepW, tick]
  split
  next s1 heq =>
    rw [stepOf_recordStep_other _ _ _ _ _ hj, stepOf_clockBump]
    have h2 : stepOf s1 id j
        = stepOf (recordStep { s with clock := s.clock + 1 } id name
            (fun r => { r with status := "running", startedAt := some s.clock })) id j := by
      have h3 := stepOf_of_preserves hbody (recordStep { s with clock := s.clock + 1 }
        id name (fun r => { r with status := "running", startedAt := some s.clock })) j
      rw [heq] at h3
      exact h3
    rw [h2, stepOf_recordStep_other _ _ _ _ _ hj, stepOf_clockBump]
  next s1 e1 heq =>
    rw [stepOf_recordStep_other _ _ _ _ _ hj, stepOf_clockBump]
    have h2 : stepOf s1 id j
        = stepOf (recordStep { s with clock := s.clock + 1 } id name
            (fun r => { r with status := "running", startedAt := some s.clock })) id j := by
      have h3 := stepOf_of_preserves hbody (recordStep { s with clock := s.clock + 1 }
        id name (fun r => { r with status := "running", startedAt := some s.clock })) j
      rw [heq] at h3
      exact h3
    rw [h2, stepOf_recordStep_other _ _ _ _ _ hj, stepOf_clockBump]

theorem runStepW_hasDep (id : Nat) (name : String) (body : StepM)
    (hbody : PreservesSteps id body) (s : RunSt) :
    (getDep ((runStepW id name body s).1) id).isSome = (getDep s id).isSome := by
  simp only [runStepW, tick]
  split
  next s1 heq =>
    rw [recordStep_hasDep, getDep_clockBump]
    have h2 : (getDep s1 id).isSome
        = (getDep (recordStep { s with clock := s.clock + 1 } id name
            (fun r => { r with status := "running", startedAt := some s.clock })) id).isSome := by
      have h3 := hasDep_of_preserves hbody (recordStep { s with clock := s.clock + 1 }
        id name (fun r => { r with status := "running", startedAt := some s.clock }))
      rw [heq] at h3
      exact h3
    rw [h2, recordStep_hasDep, getDep_clockBump]
  next s1 e1 heq =>
    rw [recordStep_hasDep, getDep_clockBump]
    have h2 : (getDep s1 id).isSome
        = (getDep (recordStep { s with clock := s.clock + 1 } id name
            (fun r => { r with status := "running", startedAt := some s.clock })) id).isSome := by
      have h3 := hasDep_of_preserves hbody (recordStep { s with clock := s.clock + 1 }
        id name (fun r => { r with status := "running", startedAt := some s.clock }))
      rw [heq] at h3
      exact h3
    rw [h2, recordStep_hasDep, getDep_clockBump]

theorem runStepW_fail_stepOf (id : Nat) (name : String) (body : StepM)
    (hbody : PreservesSteps id body) (s s3 : RunSt) (e : String)
    (hrun : runStepW id name body s = (s3, some e))
    (hd : (getDep s id).isSome = true) :
    ∃ r : StepRecord, stepOf s3 id name = some r
      ∧ r.status = "failed" ∧ r.error = some e := by
  have hkeep : (getDep ((runStepW id name body s).1) id).isSome = true := by
    rw [runStepW_hasDep id name body hbody s]
    exact hd
  rw [hrun] at hkeep
  simp only [runStepW, tick] at hrun
  revert hrun
  split
  · intro hrun
    exact absurd (congrArg Prod.snd hrun) (by simp)
  · rename_i s1 e1 heq
    intro hrun
    have hs3 : s3 = recordStep { s1 with clock := s1.clock + 1 } id name
        (fun r =>
          { r with status := "failed", finishedAt := some s1.clock, error := some e1 }) :=
      (congrArg Prod.fst hrun).symm
    have he : e1 = e := by
      have := congrArg Prod.snd hrun
      simpa using this
    subst he
    subst hs3
    rw [stepOf_recordStep_same]
    rcases Option.isSome_iff_exists.mp hkeep with ⟨d3, hd3⟩
    rw [recordStep_hasDep] at hkeep
    rcases Option.isSome_iff_exists.mp hkeep with ⟨d2, hd2⟩
    rw [hd2]
    exact ⟨_, rfl, rfl, rfl⟩

theorem runSeq_append (id : Nat) (l1 l2 : List (String × StepM)) :
    ∀ s : RunSt, runSeq id (l1 ++ l2) s
      = (match runSeq id l1 s with
         | (s1, none) => runSeq id l2 s1
         | (s1, some e) => (s1, some e)) := by
  induction l1 with
  | nil => intro s; rfl
  | cons nb rest ih =>
    intro s
    rcases nb with ⟨n, b⟩
    rw [List.cons_append]
    show (match runStepW id n b s with
      | (s1, none) => runSeq id (rest ++ l2) s1
      | (s1, some e) => (s1, some e)) = _
    rcases h : runStepW id n b s with ⟨s1, o⟩
    cases o with
    | none =>
      show runSeq id (rest ++ l2) s1 = _
      rw [ih s1]
      show _ = (match (match runStepW id n b s with
        | (s1, none) => runSeq id rest s1
        | (s1, some e) => (s1, some e)) with
        | (s1, none) => runSeq id l2 s1
        | (s1, some e) => (s1, some e))
      rw [h]
    | some e =>
      show (s1, some e) = _
      show _ = (match (match runStepW id n b s with
        | (s1, none) => runSeq id rest s1
        | (s1, some e) => (s1, some e)) with
        | (s1, none) => runSeq id l2 s1
        | (s1, some e) => (s1, some e))
      rw [h]

theorem runSeq_stepOf_notmem (id : Nat) (j : String) :
    ∀ (l : List (String × StepM)) (s : RunSt),
      (∀ nb ∈ l, PreservesSteps id nb.2) → (∀ nb ∈ l, j ≠ nb.1) →
      stepOf ((runSeq id l s).1) id j = stepOf s id j := by
  intro l
  induction l with
  | nil => intro s _ _; rfl
  | cons nb rest ih =>
    intro s hpres hj
    rcases nb with ⟨n, b⟩
    show stepOf ((match runStepW id n b s with
      | (s1, none) => runSeq id rest s1
      | (s1, some e) => (s1, some e)).1) id j = stepOf s id j
    rcases h : runStepW id n b s with ⟨s1, o⟩
    have hstep : stepOf s1 id j = stepOf s id j := by
      have h0 := runStepW_stepOf_other id n b (hpres (n, b) (List.mem_cons_self _ _)) s j
        (hj (n, b) (List.mem_cons_self _ _))
      rw [h] at h0
      exact h0
    cases o with
    | none =>
      show stepOf ((runSeq id rest s1).1) id j = stepOf s id j
      rw [ih s1 (fun nb hnb => hpres nb (List.mem_cons_of_mem _ hnb))
        (fun nb hnb => hj nb (List.mem_cons_of_mem _ hnb))]
      exact hstep
    | some e => exact hstep

theorem runSeq_hasDep (id : Nat) :
    ∀ (l : List (String × StepM)) (s : RunSt),
      (∀ nb ∈ l, PreservesSteps id nb.2) →
      (getDep ((runSeq id l s).1) id).isSome = (getDep s id).isSome := by
  intro l
  induction l with
  | nil => intro s _; rfl
  | cons nb rest ih =>
    intro s hpres
    rcases nb with ⟨n, b⟩
    show (getDep ((match runStepW id n b s with
      | (s1, none) => runSeq id rest s1
      | (s1, some e) => (s1, some e)).1) id).isSome = (getDep s id).isSome
    rcases h : runStepW id n b s with ⟨s1, o⟩
    have hstep : (getDep s1 id).isSome = (getDep s id).isSome := by
      have h0 := runStepW_hasDep id n b (hpres (n, b) (List.mem_cons_self _ _)) s
      rw [h] at h0
      exact h0
    cases o with
    | none =>
      show (getDep ((runSeq id rest s1).1) id).isSome = (getDep s id).isSome
      rw [ih s1 (fun nb hnb => hpres nb (List.mem_cons_of_mem _ hnb))]
      exact hstep
    | some e => exact hstep


/-- C6: step failure semantics of `runDeployment` (src/unnamed/part_002,
`runStep` lines 172-190 and the catch block lines 332-341).  If the
pre-phase succeeds, the pipeline decomposes as `pre ++ (k, body) :: post`,
every step in `pre` succeeds and step `k` throws error `e`, then: the
call returns normally (the catch swallows the error), the deployment
record ends in status "failed" with its `error` field equal to `e`, step
`k` is recorded as failed with error `e`, and no step of `post` ever
leaves the unstarted state (its step entry is absent). -/
theorem C6_step_failure_semantics
    (w : World) (cfg : EngineCfg) (job : Job) (s0 : RunSt) (ctx : DeployCtx)
    (pre post : List (String × StepM)) (k : String) (body : StepM)
    (s2 s3 : RunSt) (e : String)
    (hctx : prePhaseCtx w cfg job s0.stored = Except.ok ctx)
    (hpipe : pipeline w cfg ctx = pre ++ (k, body) :: post)
    (hpre : runSeq job.deploymentId pre (prePhaseSt job s0) = (s2, none))
    (hfail : runStepW job.deploymentId k body s2 = (s3, some e))
    (hd : (getDep s0 job.deploymentId).isSome = true)
    (hfresh : ∀ j : String, stepOf s0 job.deploymentId j = none)
    (hpost : ∀ nb ∈ post, (∀ pb ∈ pre, nb.1 ≠ pb.1) ∧ nb.1 ≠ k) :
    (runDeployment w cfg job s0).2 = none
    ∧ (∃ d : DeploymentRecord,
        getDep (runDeployment w cfg job s0).1 job.deploymentId = some d
        ∧ d.status = "failed" ∧ d.error = some e)
    ∧ (∃ r : StepRecord,
        stepOf (runDeployment w cfg job s0).1 job.deploymentId k = some r
        ∧ r.status = "failed" ∧ r.error = some e)
    ∧ (∀ nb ∈ post,
        stepOf (runDeployment w cfg job s0).1 job.deploymentId nb.1 = none) := by
  have hpremem : ∀ pb ∈ pre, PreservesSteps job.deploymentId pb.2 := by
    intro pb hpb
    exact pipeline_preserves w cfg ctx job.deploymentId pb
      (by rw [hpipe]; exact List.mem_append_left _ hpb)
  have hbodyp : PreservesSteps job.deploymentId body := by
    have hm : ((k, body) : String × StepM) ∈ pipeline w cfg ctx := by
      rw [hpipe]; exact List.mem_append_right _ (List.mem_cons_self _ _)
    exact pipeline_preserves w cfg ctx job.deploymentId (k, body) hm
  have hd1 : (getDep (prePhaseSt job s0) job.deploymentId).isSome = true := by
    have hu := updDep_hasDep { s0 with clock := s0.clock + 1 } job.deploymentId
      (fun d => { d with status := "running", startedAt := some s0.clock }) (fun d => rfl)
    show (getDep (updDep { s0 with clock := s0.clock + 1 } job.deploymentId
      (fun d => { d with status := "running", startedAt := some s0.clock }))
      job.deploymentId).isSome = true
    rw [hu, getDep_clockBump]
    exact hd
  have hd2 : (getDep s2 job.deploymentId).isSome = true := by
    have h := runSeq_hasDep job.deploymentId pre (prePhaseSt job s0) hpremem
    rw [hpre] at h
    exact h.trans hd1
  have hrunfull : runSeq job.deploymentId (pipeline w cfg ctx) (prePhaseSt job s0)
      = (s3, some e) := by
    rw [hpipe, runSeq_append, hpre]
    show (match runStepW job.deploymentId k body s2 with
      | (s1, none) => runSeq job.deploymentId post s1
      | (s1, some e) => (s1, some e)) = (s3, some e)
    rw [hfail]
  have hrd : runDeployment w cfg job s0
      = (logW (updDep { s3 with clock := s3.clock + 1 } job.deploymentId
          (fun d =>
            { d with status := "failed", finishedAt := some s3.clock, error := some e }))
          ("Deployment failed: " ++ e ++ "\n"), none) := by
    unfold runDeployment
    split
    next s e' heq =>
      rw [prePhase] at heq
      injection heq with h1 h2
      rw [hctx] at h2
      exact absurd h2 (by simp)
    next s ctx' heq =>
      rw [prePhase] at heq
      injection heq with h1 h2
      rw [hctx] at h2
      injection h2 with h3
      subst h3
      subst h1
      rw [hrunfull]
      rfl
  have hd3 : (getDep s3 job.deploymentId).isSome = true := by
    have h := runStepW_hasDep job.deploymentId k body hbodyp s2
    rw [hfail] at h
    exact h.trans hd2
  have hstep3 : ∃ r : StepRecord, stepOf s3 job.deploymentId k = some r
      ∧ r.status = "failed" ∧ r.error = some e :=
    runStepW_fail_stepOf job.deploymentId k body hbodyp s2 s3 e hfail hd2
  have hds : (logW (updDep { s3 with clock := s3.clock + 1 } job.deploymentId
      (fun d =>
        { d with status := "failed", finishedAt := some s3.clock, error := some e }))
      ("Deployment failed: " ++ e ++ "\n")).ds
      = (updDep { s3 with clock := s3.clock + 1 } job.deploymentId
      (fun d =>
        { d with status := "failed", finishedAt := some s3.clock, error := some e })).ds :=
    rfl
  refine ⟨by rw [hrd], ?_, ?_, ?_⟩
  · rw [hrd]
    have hgu := getDep_updDep { s3 with clock := s3.clock + 1 } job.deploymentId
      (fun d =>
        { d with status := "failed", finishedAt := some s3.clock, error := some e })
      (fun d => rfl)
    rw [getDep_ds_eq hds, hgu, getDep_clockBump]
    rcases Option.isSome_iff_exists.mp hd3 with ⟨d3, hd3e⟩
    rw [hd3e]
    exact ⟨_, rfl, rfl, rfl⟩
  · rw [hrd]
    have hsu := stepOf_updDep_steps { s3 with clock := s3.clock + 1 }
      job.deploymentId job.deploymentId
      (fun d =>
        { d with status := "failed", finishedAt := some s3.clock, error := some e })
      (fun d => rfl) (fun d => rfl) k
    rw [stepOf_ds_eq hds, hsu, stepOf_clockBump]
    exact hstep3
  · intro nb hnb
    rcases hpost nb hnb with ⟨hnbpre, hnbk⟩
    rw [hrd]
    have hsu := stepOf_updDep_steps { s3 with clock := s3.clock + 1 }
      job.deploymentId job.deploymentId
      (fun d =>
        { d with status := "failed", finishedAt := some s3.clock, error := some e })
      (fun d => rfl) (fun d => rfl) nb.1
    rw [stepOf_ds_eq hds, hsu, stepOf_clockBump]
    have h1 : stepOf s3 job.deploymentId nb.1 = stepOf s2 job.deploymentId nb.1 := by
      have h := runStepW_stepOf_other job.deploymentId k body hbodyp s2 nb.1 hnbk
      rw [hfail] at h
      exact h
    have h2 : stepOf s2 job.deploymentId nb.1
        = stepOf (prePhaseSt job s0) job.deploymentId nb.1 := by
      have h := runSeq_stepOf_notmem job.deploymentId nb.1 pre (prePhaseSt job s0)
        hpremem hnbpre
      rw [hpre] at h
      exact h
    have h3 : stepOf (prePhaseSt job s0) job.deploymentId nb.1
        = stepOf s0 job.deploymentId nb.1 := by
      have hsu0 := stepOf_updDep_steps { s0 with clock := s0.clock + 1 }
        job.deploymentId job.deploymentId
        (fun d => { d with status := "running", startedAt := some s0.clock })
        (fun d => rfl) (fun d => rfl) nb.1
      show stepOf (updDep { s0 with clock := s0.clock + 1 } job.deploymentId
        (fun d => { d with status := "running", startedAt := some s0.clock }))
        job.deploymentId nb.1 = _
      rw [hsu0, stepOf_clockBump]
    rw [h1, h2, h3]
    exact hfresh nb.1

/-- Witness for C6: a concrete run (project p1, every subprocess exiting
1) in which the sync step fails at `git fetch`, the record ends failed
with that error, and the later steps never start. -/
theorem C6_step_failure_semantics_witness :
    (runDeployment failWorld fixCfg fixJob fixS0).2 = none
    ∧ (∃ d : DeploymentRecord,
        getDep (runDeployment failWorld fixCfg fixJob fixS0).1 0 = some d
        ∧ d.status = "failed" ∧ d.error = some syncFailMsg)
    ∧ (∃ r : StepRecord,
        stepOf (runDeployment failWorld fixCfg fixJob fixS0).1 0 "sync" = some r
        ∧ r.status = "failed" ∧ r.error = some syncFailMsg)
    ∧ stepOf (runDeployment failWorld fixCfg fixJob fixS0).1 0 "build" = none
    ∧ stepOf (runDeployment failWorld fixCfg fixJob fixS0).1 0 "release" = none
    ∧ stepOf (runDeployment failWorld fixCfg fixJob fixS0).1 0 "runtime" = none := by
  have h := C6_step_failure_semantics failWorld fixCfg fixJob fixS0 fixCtx
    failPre failPost "sync" (syncBody failWorld fixCtx) failS2 failS3 syncFailMsg
    rfl rfl rfl rfl rfl (fun j => rfl) (by decide)
  exact ⟨h.1, h.2.1, h.2.2.1,
    h.2.2.2 _ (show ("build", buildBody failWorld fixCtx) ∈ failPost from
      List.Mem.tail _ (List.Mem.tail _ (List.Mem.head _))),
    h.2.2.2 _ (show ("release", releaseBody failWorld fixCfg fixCtx) ∈ failPost from
      List.Mem.tail _ (List.Mem.tail _ (List.Mem.tail _ (List.Mem.head _)))),
    h.2.2.2 _ (show ("runtime", runtimeBody failWorld fixCfg fixCtx) ∈ failPost from
      List.Mem.tail _ (List.Mem.tail _ (List.Mem.tail _ (List.Mem.tail _
        (List.Mem.tail _ (List.Mem.head _))))))⟩

/-! ## The complete dry run, step by step -/

theorem dry_step1 :
    runStepW 0 "sync" (syncBody fixWorld dryCtx) (prePhaseSt dryJob dryS0)
      = (dry1, none) := rfl

theorem dry_step2 :
    runStepW 0 "install" (installBody fixWorld dryCtx) dry1 = (dry2, none) := rfl

theorem dry_step3 :
    runStepW 0 "test" (testBody fixWorld dryCtx) dry2 = (dry3, none) := rfl

theorem dry_step4 :
    runStepW 0 "build" (buildBody fixWorld dryCtx) dry3 = (dry4, none) := rfl

theorem dry_step5 :
    runStepW 0 "release" (releaseBody fixWorld fixCfg dryCtx) dry4 = (dry5, none) := rfl

theorem dry_step6 :
    runStepW 0 "nginx" (nginxBody fixWorld fixCfg dryCtx) dry5 = (dry6, none) := rfl

theorem dry_step7 :
    runStepW 0 "runtime" (runtimeBody fixWorld fixCfg dryCtx) dry6 = (dry7, none) := rfl

theorem dry_runSeq :
    runSeq 0 (pipeline fixWorld fixCfg dryCtx) (prePhaseSt dryJob dryS0)
      = (dry7, none) := by
  rw [show pipeline fixWorld fixCfg dryCtx
    = [("sync", syncBody fixWorld dryCtx), ("install", installBody fixWorld dryCtx),
       ("test", testBody fixWorld dryCtx), ("build", buildBody fixWorld dryCtx),
       ("release", releaseBody fixWorld fixCfg dryCtx),
       ("nginx", nginxBody fixWorld fixCfg dryCtx),
       ("runtime", runtimeBody fixWorld fixCfg dryCtx)] from rfl]
  simp only [runSeq, dry_step1, dry_step2, dry_step3, dry_step4, dry_step5,
    dry_step6, dry_step7]

theorem dry_final :
    runDeployment fixWorld fixCfg dryJob dryS0 = (dryFinal, none) := by
  unfold runDeployment
  split
  next s e' heq =>
    rw [prePhase] at heq
    injection heq with h1 h2
    exact absurd h2 (by rw [show prePhaseCtx fixWorld fixCfg dryJob dryS0.stored
      = Except.ok dryCtx from rfl]; simp)
  next s ctx' heq =>
    rw [prePhase] at heq
    injection heq with h1 h2
    rw [show prePhaseCtx fixWorld fixCfg dryJob dryS0.stored
      = Except.ok dryCtx from rfl] at h2
    injection h2 with h3
    subst h3
    subst h1
    rw [show dryJob.deploymentId = 0 from rfl, dry_runSeq]
    rfl

/-- C5: counterevidence (code bug).  A dry run (src/unnamed/part_002
`runDeployment`, success finalization at lines 325-331) that reaches the
end of the step machine ends in status "success" and performs no
filesystem operation, but the success path calls
`projectStore.updateProject` unconditionally: the stored project's
`lastDeploy` and `lastCommit` are overwritten even though
`job.dryRun = true`, contradicting the claim that no state change is
persisted to the project record.  (`runtimePort` happens to be
unchanged here.) -/
theorem C5_dry_run_mutates_project :
    (runDeployment fixWorld fixCfg dryJob dryS0).2 = none
    ∧ ((getDep (runDeployment fixWorld fixCfg dryJob dryS0).1 0).map
        DeploymentRecord.status) = some "success"
    ∧ (runDeployment fixWorld fixCfg dryJob dryS0).1.fsOps = []
    ∧ fixProject.lastDeploy = none
    ∧ fixProject.lastCommit = none
    ∧ ((runDeployment fixWorld fixCfg dryJob dryS0).1.stored.map Project.lastDeploy)
        = some (some 16)
    ∧ ((runDeployment fixWorld fixCfg dryJob dryS0).1.stored.map Project.lastCommit)
        = some (some "")
    ∧ ((runDeployment fixWorld fixCfg dryJob dryS0).1.stored.map Project.runtimePort)
        = some none := by
  rw [dry_final]
  exact ⟨rfl, rfl, rfl, rfl, rfl, rfl, rfl, rfl⟩

/-- C7: rollback with no previous release (src/unnamed/part_002
`rollbackProject`, lines 344-370).  When reading the `previous` symlink
fails, the call throws "No previous release to roll back to" and returns
the state completely unchanged: no filesystem operation is recorded (so
the `current` symlink and the deploy path are untouched), no web-server
config is written and no process-manager restart is issued. -/
theorem C7_rollback_no_previous (w : World) (cfg : EngineCfg) (projectId : String)
    (s : RunSt)
    (h : w.readlink (previousSymlink cfg.projectsDir projectId) = none) :
    rollbackProject w cfg projectId s
      = (s, some "No previous release to roll back to") := by
  simp only [rollbackProject]
  rw [h]

/-- Witness for C7: `fixWorld` has no symlinks at all, so rolling back
project p1 fails with NoPrevious and leaves `fixS0` untouched. -/
theorem C7_rollback_no_previous_witness :
    fixWorld.readlink (previousSymlink fixCfg.projectsDir "p1") = none
    ∧ rollbackProject fixWorld fixCfg "p1" fixS0
        = (fixS0, some "No previous release to roll back to") :=
  ⟨rfl, C7_rollback_no_previous fixWorld fixCfg "p1" fixS0 rfl⟩


/-- C10: projectStore `getProject` (src/api/lib/commandTemplates.js,
lines 136-147) is total in the model: a missing or unparseable config
file (`none`) yields `null`, and a readable project record is returned
with `ownerId` defaulted through `data.ownerId || 'admin'` and
`templateId` passed through `data.templateId ?? null`.  In particular a
record with no `ownerId` comes back as `admin`-owned, and the engine's
admin test `(project.ownerId || 'admin') === ADMIN_OWNER_ID` (used at
src/unnamed/part_002 lines 87-94 and 135-139 to let admin projects run
their own commands without a template) then holds. -/
theorem C10_getProject_defaults :
    getProject none = none
    ∧ ∀ data : StoredProject, ∃ p : Project, getProject (some data) = some p
        ∧ p.ownerId = some ((strVal data.ownerId).getD "admin")
        ∧ p.templateId = data.templateId
        ∧ (data.ownerId = none →
            p.ownerId = some "admin"
            ∧ (strVal p.ownerId).getD "admin" = "admin") := by
  refine ⟨rfl, ?_⟩
  intro data
  refine ⟨_, rfl, rfl, rfl, ?_⟩
  intro h
  constructor
  · show some ((strVal data.ownerId).getD "admin") = some "admin"
    rw [h]
    rfl
  · show (strVal (some ((strVal data.ownerId).getD "admin"))).getD "admin" = "admin"
    rw [h]
    rfl

/-- Witness for C10: the empty stored record (every field absent) comes
back admin-owned with no template. -/
theorem C10_getProject_defaults_witness :
    ∃ p : Project, getProject (some ({} : StoredProject)) = some p
      ∧ p.ownerId = some "admin" ∧ p.templateId = none := by
  rcases C10_getProject_defaults.2 {} with ⟨p, h1, h2, h3, h4⟩
  rcases h4 rfl with ⟨h5, h6⟩
  exact ⟨p, h1, h5, by rw [h3]⟩


/-- C1: queue admission (src/unnamed/part_002 `queueDeployment`, lines
76-109; MAX_QUEUE_SIZE from src/api/lib/config.js line 16).  For a valid
project (deployPath/repo/branch present, buildCommand for admin-owned
projects or templateId otherwise, deploy path accepted): when the number
of waiting jobs plus active workers is at least `maxQueueSize` the call
fails with the QueueFull error (HTTP 429) and, the model being
functional, no record or queue entry is produced; otherwise it returns
the state with exactly one new deployment record in status "queued" and
the job appended to the queue, and the new queued + active total still
respects `maxQueueSize`. -/
theorem C1_queue_admission (cfg : EngineCfg) (st : EngineState) (projectId : String)
    (p : Project) (dryRun : Bool) (r : String)
    (hdp : strT p.deployPath = true)
    (hrepo : strT p.repo = true) (hbr : strT p.branch = true)
    (hadmin : (strVal p.ownerId).getD "admin" = "admin" → strT p.buildCommand = true)
    (htmpl : ¬ (strVal p.ownerId).getD "admin" = "admin" → strT p.templateId = true)
    (hpath : ensureDeployPathWithinRoot cfg.nginxRoot cfg.cwd (p.deployPath.getD "")
      = Except.ok r) :
    (st.queue.length + st.active ≥ cfg.maxQueueSize →
      queueDeployment cfg st projectId (some p) dryRun
        = Except.error { message := "Deployment queue is full. Try again later.",
                         statusCode := some 429 })
    ∧ (st.queue.length + st.active < cfg.maxQueueSize →
      ∃ st1 : EngineState, ∃ job : Job,
        queueDeployment cfg st projectId (some p) dryRun = Except.ok (st1, job)
        ∧ job = { deploymentId := st.nextId, projectId := projectId, dryRun := dryRun }
        ∧ st1.deployments = st.deployments
            ++ [{ deploymentId := st.nextId, projectId := projectId,
                  status := "queued", dryRun := dryRun, createdAt := st.clock,
                  steps := [] }]
        ∧ st1.queue = st.queue ++ [job]
        ∧ st1.active = st.active
        ∧ st1.queue.length + st1.active ≤ cfg.maxQueueSize) := by
  constructor
  · intro hfull
    by_cases hadm : (strVal p.ownerId).getD "admin" = "admin"
    · have hd1 : decide ((strVal p.ownerId).getD "admin" = "admin") = true :=
        decide_eq_true hadm
      have hbc := hadmin hadm
      simp only [queueDeployment, hdp, hrepo, hbr, hd1, hbc, Bool.not_true,
        Bool.or_self, Bool.false_and, Bool.and_false, Bool.true_and, Bool.and_self,
        if_false, Bool.false_or, Bool.or_false]
      rw [hpath]
      simp [hfull]
    · have hd1 : decide ((strVal p.ownerId).getD "admin" = "admin") = false :=
        decide_eq_false hadm
      have htp := htmpl hadm
      simp only [queueDeployment, hdp, hrepo, hbr, hd1, htp, Bool.not_true,
        Bool.not_false, Bool.or_self, Bool.false_and, Bool.and_false, Bool.true_and,
        Bool.and_self, if_false, Bool.false_or, Bool.or_false]
      rw [hpath]
      simp [hfull]
  · intro hlt
    have hnge : ¬ (st.queue.length + st.active ≥ cfg.maxQueueSize) := Nat.not_le.mpr hlt
    have hbound : (st.queue.length + 1) + st.active ≤ cfg.maxQueueSize := by omega
    by_cases hadm : (strVal p.ownerId).getD "admin" = "admin"
    · have hd1 : decide ((strVal p.ownerId).getD "admin" = "admin") = true :=
        decide_eq_true hadm
      have hbc := hadmin hadm
      simp only [queueDeployment, createDeployment, hdp, hrepo, hbr, hd1, hbc,
        Bool.not_true, Bool.or_self, Bool.false_and, Bool.and_false, Bool.true_and,
        Bool.and_self, if_false, Bool.false_or, Bool.or_false]
      rw [hpath]
      simp only [hnge, if_false, ite_false, if_neg hnge]
      refine ⟨_, _, rfl, rfl, rfl, rfl, rfl, ?_⟩
      simpa using hbound
    · have hd1 : decide ((strVal p.ownerId).getD "admin" = "admin") = false :=
        decide_eq_false hadm
      have htp := htmpl hadm
      simp only [queueDeployment, createDeployment, hdp, hrepo, hbr, hd1, htp,
        Bool.not_true, Bool.not_false, Bool.or_self, Bool.false_and, Bool.and_false,
        Bool.true_and, Bool.and_self, if_false, Bool.false_or, Bool.or_false]
      rw [hpath]
      simp only [hnge, if_false, ite_false, if_neg hnge]
      refine ⟨_, _, rfl, rfl, rfl, rfl, rfl, ?_⟩
      simpa using hbound

/-- Witness for C1: with the default bound 50, a state with 50 active
workers rejects `fixProject` with QueueFull, while the empty state
admits it and stays within the bound. -/
theorem C1_queue_admission_witness :
    queueDeployment fixCfg { active := 50 } "p1" (some fixProject) false
      = Except.error { message := "Deployment queue is full. Try again later.",
                       statusCode := some 429 }
    ∧ ∃ st1 : EngineState, ∃ job : Job,
        queueDeployment fixCfg {} "p1" (some fixProject) false = Except.ok (st1, job)
        ∧ st1.queue.length + st1.active ≤ fixCfg.maxQueueSize := by
  constructor
  · exact (C1_queue_admission fixCfg { active := 50 } "p1" fixProject false
      "/var/www/p1" rfl rfl rfl (fun _ => rfl) (fun h => absurd rfl h) rfl).1
      (by decide)
  · rcases (C1_queue_admission fixCfg {} "p1" fixProject false
      "/var/www/p1" rfl rfl rfl (fun _ => rfl) (fun h => absurd rfl h) rfl).2
      (by decide) with ⟨st1, job, h1, h2, h3, h4, h5, h6⟩
    exact ⟨st1, job, h1, h6⟩


end Deployer
